import Mathlib

/-!
Verification of the symbol-definition resolver of `monaco-definition-provider`.

The development shallowly embeds the TypeScript sources:
* `src/analyzers/python.ts`   (regex-based Python scanner)
* `src/analyzers/typescript.ts` (regex-based TypeScript/JavaScript scanner)
* `DefinitionProvider.ts`     (registry, orchestration, cancellation, dispose)

The scanners in the source are driven by JavaScript regular expressions with
the `gm` flags, all anchored at `^`.  Every one of those patterns is built
from literals, the character classes `\w`, `\s`, `[\w.]`, `[^x]`, greedy
repetition and a few optional groups.  For each pattern the backtracking
behaviour is fully determined (the repeated classes are disjoint from the
token that follows them, so greedy matching never has to give characters
back, except in the few places noted in comments where an explicit fallback
is implemented).  Each pattern is therefore embedded as a deterministic
matcher over `List Char`; each matcher's doc comment quotes the regex it
implements.  The `g`-loop of `RegExp.exec` is embedded by `execScan`, which
visits the line starts of the text in order (all patterns are `^`-anchored)
and resumes after the end of the previous match, exactly like `lastIndex`.
-/

namespace MDP

/-- JavaScript `\w`: ASCII letters, digits and underscore. -/
def isWordChar (c : Char) : Bool := c.isAlpha || c.isDigit || c == '_'

/-- JavaScript `\s` (restricted to the ASCII whitespace actually produced by
source text: space, tab, newline, carriage return, vertical tab, form feed). -/
def isSpaceChar (c : Char) : Bool :=
  c == ' ' || c == '\t' || c == '\n' || c == '\r' || c == '\x0b' || c == '\x0c'

/-- Match a literal list of characters at the head of `t`; on success return
the rest of `t`. -/
def litMatch : List Char → List Char → Option (List Char)
  | [], t => some t
  | _ :: _, [] => none
  | c :: cs, d :: ds => if c == d then litMatch cs ds else none

/-- `String.prototype.split(sep)` for a single-character separator:
`"".split` gives `[""]`, a trailing separator gives a trailing `""`. -/
def splitOnChar (sep : Char) : List Char → List (List Char)
  | [] => [[]]
  | c :: rest =>
    let r := splitOnChar sep rest
    if c == sep then [] :: r
    else
      match r with
      | [] => [[c]]
      | h :: t => (c :: h) :: t

/-- `String.prototype.trim` (over the ASCII whitespace of `isSpaceChar`). -/
def trimList (l : List Char) : List Char :=
  ((l.dropWhile isSpaceChar).reverse.dropWhile isSpaceChar).reverse

/-- `String.prototype.indexOf` for a substring: index of the first
occurrence of `pat`, if any. -/
def indexOfList (pat : List Char) : List Char → Option Nat
  | [] => if pat.isEmpty then some 0 else none
  | l@(_ :: rest) =>
    if (litMatch pat l).isSome then some 0
    else (indexOfList pat rest).map (· + 1)

/-- A `\b` boundary on the side of a neighbouring character (`none` = edge
of the text): satisfied when the neighbour is not a word character. -/
def boundaryBefore : Option Char → Bool
  | none => true
  | some c => !isWordChar c

/-- `pat` matches at the head of `l` with a right `\b` boundary. -/
def wordMatchHere (pat l : List Char) : Bool :=
  match litMatch pat l with
  | none => false
  | some [] => true
  | some (c :: _) => !isWordChar c

/-- Does `pat` occur in the list as a `\b pat \b` word occurrence?  `prev` is
the character immediately before the list (used for the left boundary of an
occurrence at position 0). -/
def wordOccurs (pat : List Char) : Option Char → List Char → Bool
  | _, [] => false
  | prev, l@(c :: rest) =>
    (boundaryBefore prev && wordMatchHere pat l) || wordOccurs pat (some c) rest

/-- Indices of line starts (offset 0 plus every offset following a `'\n'`);
these are exactly the offsets at which a `^`-anchored `m`-flag pattern may
match. -/
def lineStartsAux : List Char → Nat → List Nat
  | [], _ => []
  | c :: rest, i =>
    if c == '\n' then (i + 1) :: lineStartsAux rest (i + 1)
    else lineStartsAux rest (i + 1)

/-- All line-start offsets of the text, in increasing order. -/
def lineStarts (src : List Char) : List Nat := 0 :: lineStartsAux src 0

/-- `getLineColumn(source, index)` of the analyzers: 1-based line and column
of a flat character offset (the code splits the prefix on `'\n'` and takes
the number of pieces and the length of the last piece). -/
def getLineColumn (src : List Char) (idx : Nat) : Nat × Nat :=
  let before := src.take idx
  (before.count '\n' + 1, (before.reverse.takeWhile (fun c => c != '\n')).length + 1)

/-- The `while ((match = regex.exec(source)) !== null)` loop for a
`^`-anchored `gm` pattern: visit candidate line starts in order, skip those
before `lastIndex`, and after a match resume at its end.  `tryAt i` returns
the captures and the end offset of a match starting at offset `i`. -/
def execScan {α : Type} (tryAt : Nat → Option (α × Nat)) : List Nat → Nat → List α
  | [], _ => []
  | i :: rest, lastIndex =>
    if i < lastIndex then execScan tryAt rest lastIndex
    else
      match tryAt i with
      | some (a, e) => a :: execScan tryAt rest e
      | none => execScan tryAt rest lastIndex

/-- A single `regex.exec(source)` call on a fresh `^`-anchored pattern:
the first line start with a match. -/
def scanFirst {α : Type} (tryAt : Nat → Option α) : List Nat → Option α
  | [] => none
  | i :: rest =>
    match tryAt i with
    | some a => some a
    | none => scanFirst tryAt rest

/-- `lines[line - 1]?.length || 1` — the end column used for import
definitions (whole-line span, with `0` turned into `1` by JS falsiness). -/
def lineLenD (lines : List (List Char)) (line : Nat) : Nat :=
  let len := (lines.getD (line - 1) []).length
  if len == 0 then 1 else len

/-- `SymbolDefinition` of `src/types.ts`.  `kind` is the literal string of
the TypeScript union `SymbolKind`. -/
structure SymbolDefinition where
  name : String
  startLine : Nat
  startColumn : Nat
  endLine : Nat
  endColumn : Nat
  kind : String
deriving DecidableEq, Repr

/-- The whole-line `import` definition every import scanner pushes. -/
def importSpanDef (lines : List (List Char)) (line : Nat) (nm : List Char) : SymbolDefinition :=
  { name := ⟨nm⟩, startLine := line, startColumn := 1,
    endLine := line, endColumn := lineLenD lines line, kind := "import" }

namespace PythonAnalyzer

/-- Captures of one `FUNCTION_DEF = /^(\s*)def\s+(\w+)\s*\(/gm` match:
the match offset, `match[1].length`, `match[2]` and `match[0]`
(reconstructed as the concatenation of the matched pieces). -/
structure FuncMatch where
  index : Nat
  indentLen : Nat
  name : List Char
  matched : List Char
deriving DecidableEq, Repr

/-- Matcher for `FUNCTION_DEF = /^(\s*)def\s+(\w+)\s*\(/` at offset `i`
(greedy `\s*`/`\s+`/`\w+` runs never backtrack here because each repeated
class is disjoint from the literal that follows it). -/
def tryFunctionDefAt (src : List Char) (i : Nat) : Option (FuncMatch × Nat) :=
  let t := src.drop i
  let ws1 := t.takeWhile isSpaceChar
  let t1 := t.drop ws1.length
  match litMatch ("def".data) t1 with
  | none => none
  | some t2 =>
    let ws2 := t2.takeWhile isSpaceChar
    if ws2.length == 0 then none
    else
      let t3 := t2.drop ws2.length
      let nm := t3.takeWhile isWordChar
      if nm.length == 0 then none
      else
        let t4 := t3.drop nm.length
        let ws3 := t4.takeWhile isSpaceChar
        match t4.drop ws3.length with
        | '(' :: _ =>
          let m0 := ws1 ++ ("def".data) ++ ws2 ++ nm ++ ws3 ++ ['(']
          some (⟨i, ws1.length, nm, m0⟩, i + m0.length)
        | _ => none

/-- Inner loop of `findParameters`: `paramString.split(',')` processed in
order, with `colOffset` advanced by `param.length + 1` for every piece. -/
def paramsLoop (funcLine : Nat) : List (List Char) → Nat → List SymbolDefinition
  | [], _ => []
  | param :: rest, colOffset =>
    let next := paramsLoop funcLine rest (colOffset + param.length + 1)
    let trimmed := trimList param
    if trimmed == [] || trimmed == ("self".data) || trimmed == ("cls".data) then next
    else
      -- `trimmed.split(/[=:]/)[0].trim()`: characters before the first '=' or ':'
      let paramName := trimList (trimmed.takeWhile (fun c => !(c == '=' || c == ':')))
      if paramName != [] && paramName.all isWordChar then
        let paramStart := colOffset + (indexOfList paramName param).getD 0 + 1
        { name := ⟨paramName⟩, startLine := funcLine, startColumn := paramStart,
          endLine := funcLine, endColumn := paramStart + paramName.length,
          kind := "parameter" } :: next
      else next

/-- `findParameters(funcDef, funcLine)`: looks for `/\(([^)]*)\)/` in the
string it is given — the first `'('` followed (anywhere later) by a `')'`,
with the parameter list the characters in between.  Note the caller passes
`match[0]` of `FUNCTION_DEF`, which ends at the opening parenthesis. -/
def findParameters (funcDef : List Char) (funcLine : Nat) : List SymbolDefinition :=
  match funcDef.findIdx? (· == '(') with
  | none => []
  | some p =>
    let afterParen := funcDef.drop (p + 1)
    match afterParen.findIdx? (· == ')') with
    | none => []
    | some q =>
      let paramString := afterParen.take q
      paramsLoop funcLine (splitOnChar ',' paramString) (p + 1)

/-- `findFunctions`: one `function` definition per `FUNCTION_DEF` match,
with the name position computed as `match.index + match[1].length + 4`
(the length of `'def '`), followed by that function's parameters. -/
def findFunctions (src : List Char) : List SymbolDefinition :=
  (execScan (tryFunctionDefAt src) (lineStarts src) 0).flatMap fun m =>
    let nameStart := m.index + m.indentLen + 4
    let pos := getLineColumn src nameStart
    { name := ⟨m.name⟩, startLine := pos.1, startColumn := pos.2,
      endLine := pos.1, endColumn := pos.2 + m.name.length,
      kind := "function" } :: findParameters m.matched pos.1

/-- Captures of one `CLASS_DEF = /^(\s*)class\s+(\w+)\s*[:(]/gm` match. -/
structure ClassMatch where
  index : Nat
  indentLen : Nat
  name : List Char
deriving DecidableEq, Repr

/-- Matcher for `CLASS_DEF = /^(\s*)class\s+(\w+)\s*[:(]/` at offset `i`. -/
def tryClassDefAt (src : List Char) (i : Nat) : Option (ClassMatch × Nat) :=
  let t := src.drop i
  let ws1 := t.takeWhile isSpaceChar
  let t1 := t.drop ws1.length
  match litMatch ("class".data) t1 with
  | none => none
  | some t2 =>
    let ws2 := t2.takeWhile isSpaceChar
    if ws2.length == 0 then none
    else
      let t3 := t2.drop ws2.length
      let nm := t3.takeWhile isWordChar
      if nm.length == 0 then none
      else
        let t4 := t3.drop nm.length
        let ws3 := t4.takeWhile isSpaceChar
        match t4.drop ws3.length with
        | ':' :: _ =>
          some (⟨i, ws1.length, nm⟩, i + ws1.length + 5 + ws2.length + nm.length + ws3.length + 1)
        | '(' :: _ =>
          some (⟨i, ws1.length, nm⟩, i + ws1.length + 5 + ws2.length + nm.length + ws3.length + 1)
        | _ => none

/-- `findClasses`: one `class` definition per `CLASS_DEF` match, name
position `match.index + match[1].length + 6` (the length of `'class '`). -/
def findClasses (src : List Char) : List SymbolDefinition :=
  (execScan (tryClassDefAt src) (lineStarts src) 0).map fun m =>
    let nameStart := m.index + m.indentLen + 6
    let pos := getLineColumn src nameStart
    { name := ⟨m.name⟩, startLine := pos.1, startColumn := pos.2,
      endLine := pos.1, endColumn := pos.2 + m.name.length, kind := "class" }

/-- Captures of one `VARIABLE_ASSIGNMENT = /^(\s*)(\w+)\s*(?::\s*\w+)?\s*=/gm`
match. -/
structure VarMatch where
  index : Nat
  indentLen : Nat
  name : List Char
deriving DecidableEq, Repr

/-- Matcher for `VARIABLE_ASSIGNMENT = /^(\s*)(\w+)\s*(?::\s*\w+)?\s*=/` at
offset `i`.  The optional annotation group fires exactly when the character
after the first `\s*` run is `':'` (skipping a present `':'` can never help,
because the alternative immediately demands `'='`). -/
def tryVariableAt (src : List Char) (i : Nat) : Option (VarMatch × Nat) :=
  let t := src.drop i
  let ws1 := t.takeWhile isSpaceChar
  let t1 := t.drop ws1.length
  let nm := t1.takeWhile isWordChar
  if nm.length == 0 then none
  else
    let t2 := t1.drop nm.length
    let ws2 := t2.takeWhile isSpaceChar
    let t3 := t2.drop ws2.length
    let base := ws1.length + nm.length + ws2.length
    match t3 with
    | '=' :: _ => some (⟨i, ws1.length, nm⟩, i + base + 1)
    | ':' :: t4 =>
      let ws3 := t4.takeWhile isSpaceChar
      let t5 := t4.drop ws3.length
      let ann := t5.takeWhile isWordChar
      if ann.length == 0 then none
      else
        let t6 := t5.drop ann.length
        let ws4 := t6.takeWhile isSpaceChar
        match t6.drop ws4.length with
        | '=' :: _ =>
          some (⟨i, ws1.length, nm⟩, i + base + 1 + ws3.length + ann.length + ws4.length + 1)
        | _ => none
    | _ => none

/-- Emission loop of `findVariables`: skip indents deeper than 4, then
deduplicate on the key `indent.length : name` (the key is recorded before
the underscore test, exactly as in the code), then skip names starting with
`'_'` other than the bare `'_'`. -/
def variablesLoop (src : List Char) : List VarMatch → List (Nat × List Char) → List SymbolDefinition
  | [], _ => []
  | m :: rest, seen =>
    if m.indentLen > 4 then variablesLoop src rest seen
    else
      let key := (m.indentLen, m.name)
      if seen.contains key then variablesLoop src rest seen
      else
        let seen' := key :: seen
        if (match m.name with | '_' :: _ => true | _ => false) && m.name != ['_'] then
          variablesLoop src rest seen'
        else
          let nameStart := m.index + m.indentLen
          let pos := getLineColumn src nameStart
          { name := ⟨m.name⟩, startLine := pos.1, startColumn := pos.2,
            endLine := pos.1, endColumn := pos.2 + m.name.length,
            kind := "variable" } :: variablesLoop src rest seen'

/-- `findVariables`: all `VARIABLE_ASSIGNMENT` matches, filtered and
deduplicated by `variablesLoop`. -/
def findVariables (src : List Char) : List SymbolDefinition :=
  variablesLoop src (execScan (tryVariableAt src) (lineStarts src) 0) []

/-- Does `/\s+as\s+/` match at the head of `l`?  On success, return the
number of characters it consumes (`\s+` and `as` and `\s+`, all greedy,
with no backtracking since `\s` and `'a'`/word characters are disjoint). -/
def asSepMatchAt (l : List Char) : Option Nat :=
  let ws1 := l.takeWhile isSpaceChar
  if ws1.length == 0 then none
  else
    match litMatch ("as".data) (l.drop ws1.length) with
    | none => none
    | some t2 =>
      let ws2 := t2.takeWhile isSpaceChar
      if ws2.length == 0 then none else some (ws1.length + 2 + ws2.length)

/-- `imp.trim().split(/\s+as\s+/)`: split on every (leftmost, greedy)
occurrence of the separator.  A successful `asSepMatchAt` always consumes at
least 4 characters, so resuming at `rest.drop (k - 1)` is resuming after the
separator.  The recursion is fuelled (structurally, so that it evaluates in
the kernel); every step strictly shrinks the list, so fuel `l.length`
always suffices and the out-of-fuel branch is unreachable. -/
def splitOnAsSepAux : Nat → List Char → List Char → List (List Char)
  | _, acc, [] => [acc.reverse]
  | 0, acc, l => [acc.reverse ++ l]
  | fuel + 1, acc, c :: rest =>
    match asSepMatchAt (c :: rest) with
    | some k => acc.reverse :: splitOnAsSepAux fuel [] (rest.drop (k - 1))
    | none => splitOnAsSepAux fuel (c :: acc) rest

def splitOnAsSep (l : List Char) : List (List Char) := splitOnAsSepAux l.length [] l

/-- Captures of one `IMPORT_FROM = /^from\s+([\w.]+)\s+import\s+(.+)$/gm`
match: the match offset and `match[2]` (the import list). -/
structure FromImportMatch where
  index : Nat
  importList : List Char
deriving DecidableEq, Repr

/-- Matcher for `IMPORT_FROM = /^from\s+([\w.]+)\s+import\s+(.+)$/` at
offset `i`.  The `\s+` runs may cross newlines (JS `\s` includes `'\n'`),
while `(.+)$` is confined to one line.  In the corner case where the text
ends inside the `\s+` run after `import`, JS can still close the match by
handing trailing non-newline whitespace to `(.+)`; that match has a
whitespace-only import list, emits no definitions, and its end offset lies
in trailing whitespace where no later line can match any pattern, so the
embedding reports no match there. -/
def tryFromImportAt (src : List Char) (i : Nat) : Option (FromImportMatch × Nat) :=
  let t := src.drop i
  match litMatch ("from".data) t with
  | none => none
  | some t1 =>
    let ws1 := t1.takeWhile isSpaceChar
    if ws1.length == 0 then none
    else
      let t2 := t1.drop ws1.length
      let md := t2.takeWhile (fun c => isWordChar c || c == '.')
      if md.length == 0 then none
      else
        let t3 := t2.drop md.length
        let ws2 := t3.takeWhile isSpaceChar
        if ws2.length == 0 then none
        else
          match litMatch ("import".data) (t3.drop ws2.length) with
          | none => none
          | some t5 =>
            let ws3 := t5.takeWhile isSpaceChar
            if ws3.length == 0 then none
            else
              let content := (t5.drop ws3.length).takeWhile (fun c => c != '\n')
              if content.length == 0 then none
              else
                let e := i + 4 + ws1.length + md.length + ws2.length + 6 + ws3.length
                  + content.length
                some (⟨i, content⟩, e)

/-- The name bound by one piece of an import list:
`imp.trim().split(/\s+as\s+/)` and then `(parts[1] || parts[0]).trim()`. -/
def importPieceBound (imp : List Char) : List Char :=
  let parts := splitOnAsSep (trimList imp)
  let base := if parts.length ≥ 2 then
      (if parts.getD 1 [] == [] then parts.getD 0 [] else parts.getD 1 [])
    else parts.getD 0 []
  trimList base

/-- Emission for one `IMPORT_FROM` match: split the import list on `','`,
bind each piece's name (alias if present else the name itself) and emit an
`import` definition spanning the whole line (`startColumn` 1 through the
line's length), for every name passing the `/^\w+$/` test. -/
def fromImportDefs (src : List Char) (lines : List (List Char)) (m : FromImportMatch) :
    List SymbolDefinition :=
  let pos := getLineColumn src m.index
  (splitOnChar ',' m.importList).flatMap fun imp =>
    let nm := importPieceBound imp
    if nm != [] && nm.all isWordChar then [importSpanDef lines pos.1 nm]
    else []

/-- Captures of one `IMPORT_SIMPLE = /^import\s+([\w.]+)(?:\s+as\s+(\w+))?$/gm`
match: the match offset, `match[1]` and the optional `match[2]`. -/
structure SimpleImportMatch where
  index : Nat
  module : List Char
  aliasName : Option (List Char)
deriving DecidableEq, Repr

/-- The optional `(?:\s+as\s+(\w+))?` tail of `IMPORT_SIMPLE`, including the
final `$` (end of line or of text).  Returns the alias and the consumed
length. -/
def trySimpleAliasTail (t : List Char) : Option (List Char × Nat) :=
  let ws1 := t.takeWhile isSpaceChar
  if ws1.length == 0 then none
  else
    match litMatch ("as".data) (t.drop ws1.length) with
    | none => none
    | some t2 =>
      let ws2 := t2.takeWhile isSpaceChar
      if ws2.length == 0 then none
      else
        let al := (t2.drop ws2.length).takeWhile isWordChar
        if al.length == 0 then none
        else
          match (t2.drop ws2.length).drop al.length with
          | [] => some (al, ws1.length + 2 + ws2.length + al.length)
          | '\n' :: _ => some (al, ws1.length + 2 + ws2.length + al.length)
          | _ => none

/-- Matcher for `IMPORT_SIMPLE = /^import\s+([\w.]+)(?:\s+as\s+(\w+))?$/` at
offset `i`.  The optional group is greedy, so the alias tail is attempted
before falling back to a bare `$` after the module. -/
def trySimpleImportAt (src : List Char) (i : Nat) : Option (SimpleImportMatch × Nat) :=
  let t := src.drop i
  match litMatch ("import".data) t with
  | none => none
  | some t1 =>
    let ws1 := t1.takeWhile isSpaceChar
    if ws1.length == 0 then none
    else
      let t2 := t1.drop ws1.length
      let md := t2.takeWhile (fun c => isWordChar c || c == '.')
      if md.length == 0 then none
      else
        let t3 := t2.drop md.length
        let base := 6 + ws1.length + md.length
        match trySimpleAliasTail t3 with
        | some (al, k) => some (⟨i, md, some al⟩, i + base + k)
        | none =>
          match t3 with
          | [] => some (⟨i, md, none⟩, i + base)
          | '\n' :: _ => some (⟨i, md, none⟩, i + base)
          | _ => none

/-- Emission for one `IMPORT_SIMPLE` match:
`match[2] || match[1].split('.').pop() || match[1]`, spanning the whole
line. -/
def simpleImportBound (m : SimpleImportMatch) : List Char :=
  match m.aliasName with
  | some al => al
  | none =>
    let lst := (splitOnChar '.' m.module).getLastD []
    if lst == [] then m.module else lst

def simpleImportDefs (src : List Char) (lines : List (List Char)) (m : SimpleImportMatch) :
    List SymbolDefinition :=
  [importSpanDef lines (getLineColumn src m.index).1 (simpleImportBound m)]

/-- `findImports`: all `IMPORT_FROM` matches (each contributing one
definition per bound name), then all `IMPORT_SIMPLE` matches. -/
def findImports (src : List Char) (lines : List (List Char)) : List SymbolDefinition :=
  (execScan (tryFromImportAt src) (lineStarts src) 0).flatMap (fromImportDefs src lines)
    ++ (execScan (trySimpleImportAt src) (lineStarts src) 0).flatMap (simpleImportDefs src lines)

/-- `PythonAnalyzer.findDefinitions`: functions (with their parameters),
classes, shallow variables, imports — in that order. -/
def findDefinitions (source : String) : List SymbolDefinition :=
  let src := source.data
  let lines := splitOnChar '\n' src
  findFunctions src ++ findClasses src ++ findVariables src ++ findImports src lines

/-- Matcher for the `getImportPath` pattern
`new RegExp('^from\\s+([\\w.]+)\\s+import\\s+.*\\b' + symbolName + '\\b', 'gm')`
at offset `i`.  After the `\s+` following `import` (taken maximally — `\s`
can swallow newlines that `.*` cannot, and the name, made of word
characters, cannot begin inside whitespace), the name must occur with word
boundaries in the remainder of that line; the left boundary of an
occurrence at the segment start is the final whitespace character, hence
satisfied. -/
def tryFromPathAt (nm : List Char) (src : List Char) (i : Nat) : Option (List Char) :=
  let t := src.drop i
  match litMatch ("from".data) t with
  | none => none
  | some t1 =>
    let ws1 := t1.takeWhile isSpaceChar
    if ws1.length == 0 then none
    else
      let t2 := t1.drop ws1.length
      let md := t2.takeWhile (fun c => isWordChar c || c == '.')
      if md.length == 0 then none
      else
        let t3 := t2.drop md.length
        let ws2 := t3.takeWhile isSpaceChar
        if ws2.length == 0 then none
        else
          match litMatch ("import".data) (t3.drop ws2.length) with
          | none => none
          | some t5 =>
            let ws3 := t5.takeWhile isSpaceChar
            if ws3.length == 0 then none
            else
              let seg := (t5.drop ws3.length).takeWhile (fun c => c != '\n')
              if wordOccurs nm (some ' ') seg then some md else none

/-- Matcher for the `getImportPath` pattern
`'^import\\s+([\\w.]+)\\s+as\\s+' + symbolName + '\\b'` at offset `i`. -/
def tryAsPathAt (nm : List Char) (src : List Char) (i : Nat) : Option (List Char) :=
  let t := src.drop i
  match litMatch ("import".data) t with
  | none => none
  | some t1 =>
    let ws1 := t1.takeWhile isSpaceChar
    if ws1.length == 0 then none
    else
      let t2 := t1.drop ws1.length
      let md := t2.takeWhile (fun c => isWordChar c || c == '.')
      if md.length == 0 then none
      else
        let t3 := t2.drop md.length
        let ws2 := t3.takeWhile isSpaceChar
        if ws2.length == 0 then none
        else
          match litMatch ("as".data) (t3.drop ws2.length) with
          | none => none
          | some t4 =>
            let ws3 := t4.takeWhile isSpaceChar
            if ws3.length == 0 then none
            else
              match litMatch nm (t4.drop ws3.length) with
              | none => none
              | some rest =>
                match rest with
                | [] => some md
                | c :: _ => if isWordChar c then none else some md

/-- `(?:\s|$)` after the captured module of the direct-import pattern:
a whitespace character (which includes `'\n'`) or the end of the text. -/
def spaceOrEnd : List Char → Bool
  | [] => true
  | c :: _ => isSpaceChar c

/-- One candidate split of the group `(?:[\w.]*\.)?` in the direct-import
pattern: `[\w.]*` takes `L` characters, then a literal `'.'`, then the name,
then `(?:\s|$)`. -/
def tryDirectAtSplit (nm t2 : List Char) (L : Nat) : Option (List Char) :=
  if t2.get? L == some '.' then
    match litMatch nm (t2.drop (L + 1)) with
    | none => none
    | some rest => if spaceOrEnd rest then some (t2.take L ++ '.' :: nm) else none
  else none

/-- Greedy descent over the lengths of `[\w.]*` (longest first, as JS
backtracking tries them). -/
def directLoop (nm t2 : List Char) : Nat → Option (List Char)
  | 0 => tryDirectAtSplit nm t2 0
  | L + 1 =>
    match tryDirectAtSplit nm t2 (L + 1) with
    | some r => some r
    | none => directLoop nm t2 L

/-- Matcher for the `getImportPath` pattern
`'^import\\s+((?:[\\w.]*\\.)?' + symbolName + ')(?:\\s|$)'` at offset `i`:
the optional dotted prefix is tried greedily (longest `[\w.]*` first), then
the bare name. -/
def tryDirectPathAt (nm : List Char) (src : List Char) (i : Nat) : Option (List Char) :=
  let t := src.drop i
  match litMatch ("import".data) t with
  | none => none
  | some t1 =>
    let ws1 := t1.takeWhile isSpaceChar
    if ws1.length == 0 then none
    else
      let t2 := t1.drop ws1.length
      let run := (t2.takeWhile (fun c => isWordChar c || c == '.')).length
      match directLoop nm t2 run with
      | some r => some r
      | none =>
        match litMatch nm t2 with
        | none => none
        | some rest => if spaceOrEnd rest then some nm else none

/-- The three shape scanners of `PythonAnalyzer.getImportPath`, each a
single `exec` over the text (first matching line start wins). -/
def importPathFrom (source symbolName : String) : Option String :=
  (scanFirst (tryFromPathAt symbolName.data source.data) (lineStarts source.data)).map (⟨·⟩)

def importPathAs (source symbolName : String) : Option String :=
  (scanFirst (tryAsPathAt symbolName.data source.data) (lineStarts source.data)).map (⟨·⟩)

def importPathDirect (source symbolName : String) : Option String :=
  (scanFirst (tryDirectPathAt symbolName.data source.data) (lineStarts source.data)).map (⟨·⟩)

/-- `PythonAnalyzer.getImportPath`: the from-import shape, then the aliased
simple-import shape, then the direct module import — first match wins. -/
def getImportPath (source symbolName : String) : Option String :=
  match importPathFrom source symbolName with
  | some p => some p
  | none =>
    match importPathAs source symbolName with
    | some p => some p
    | none => importPathDirect source symbolName

end PythonAnalyzer

namespace TypeScriptAnalyzer

/-- The double quote (codepoint 34) and single quote (codepoint 39)
accepted by the quote class of the TS import patterns. -/
def isQuoteChar (c : Char) : Bool := c == Char.ofNat 34 || c == Char.ofNat 39

/-- An optional `(?:lit\s+)?` group: if `lit` matches and is followed by at
least one whitespace character, consume both, else consume nothing.  For
every use here (`export`, `async`, `abstract`, before `function`/`class`/
`const|let|var`/`interface`/`type`), taking the group when it matches can
never make the overall match fail while skipping it succeeds, because the
keyword that follows starts with a different letter than the group's. -/
def optLit (lit : List Char) (t : List Char) : List Char × Nat :=
  match litMatch lit t with
  | some t1 =>
    let ws := t1.takeWhile isSpaceChar
    if ws.length == 0 then (t, 0) else (t1.drop ws.length, lit.length + ws.length)
  | none => (t, 0)

/-- `(?:const|let|var)` followed by `\s+`: the alternatives begin with
distinct letters, so the choice is deterministic. -/
def kwConstLetVar (t : List Char) : Option (List Char × Nat) :=
  match litMatch ("const".data) t with
  | some t1 => some (t1, 5)
  | none =>
    match litMatch ("let".data) t with
    | some t1 => some (t1, 3)
    | none =>
      match litMatch ("var".data) t with
      | some t1 => some (t1, 3)
      | none => none

/-- Captures shared by the TS declaration matchers: the match offset, the
name, and `match[0]` (used by the code for `indexOf(name)` and, in
`findVariables`, for the `includes('=>')` test), plus `match[1].length`. -/
structure TsMatch where
  index : Nat
  indentLen : Nat
  name : List Char
  matched : List Char
deriving DecidableEq, Repr

/-- Matcher for
`FUNCTION_DECL = /^(\s*)(?:export\s+)?(?:async\s+)?function\s+(\w+)\s*[<(]/`
at offset `i`. -/
def tryFunctionAt (src : List Char) (i : Nat) : Option (TsMatch × Nat) :=
  let t := src.drop i
  let ws1 := t.takeWhile isSpaceChar
  let t1 := t.drop ws1.length
  let (t2, c1) := optLit ("export".data) t1
  let (t3, c2) := optLit ("async".data) t2
  match litMatch ("function".data) t3 with
  | none => none
  | some t4 =>
    let ws2 := t4.takeWhile isSpaceChar
    if ws2.length == 0 then none
    else
      let t5 := t4.drop ws2.length
      let nm := t5.takeWhile isWordChar
      if nm.length == 0 then none
      else
        let t6 := t5.drop nm.length
        let ws3 := t6.takeWhile isSpaceChar
        match t6.drop ws3.length with
        | '<' :: _ =>
          let len := ws1.length + c1 + c2 + 8 + ws2.length + nm.length + ws3.length + 1
          some (⟨i, ws1.length, nm, t.take len⟩, i + len)
        | '(' :: _ =>
          let len := ws1.length + c1 + c2 + 8 + ws2.length + nm.length + ws3.length + 1
          some (⟨i, ws1.length, nm, t.take len⟩, i + len)
        | _ => none

/-- The `(?:\([^)]*\)|[\w]+)\s*=>` tail of `ARROW_FUNCTION`.  Returns the
consumed length.  (`[^)]` and `[^=]` classes include `'\n'`.) -/
def tryArrowTail (u : List Char) : Option Nat :=
  match u with
  | '(' :: u1 =>
    let body := u1.takeWhile (fun c => c != ')')
    match u1.drop body.length with
    | ')' :: u2 =>
      let ws := u2.takeWhile isSpaceChar
      match litMatch ("=>".data) (u2.drop ws.length) with
      | some _ => some (1 + body.length + 1 + ws.length + 2)
      | none => none
    | _ => none
  | _ =>
    let w := u.takeWhile isWordChar
    if w.length == 0 then none
    else
      let ws := (u.drop w.length).takeWhile isSpaceChar
      match litMatch ("=>".data) ((u.drop w.length).drop ws.length) with
      | some _ => some (w.length + ws.length + 2)
      | none => none

/-- The `(?:async\s+)?` before the arrow tail.  Unlike the other optional
keyword groups this one needs the regex's backtracking: for
`const f = async => 1` the group matches `async ` but only the groupless
reading (with `[\w]+` matching `async`) completes, so on failure of the
tail the matcher retries without the group. -/
def tryArrowAsyncTail (u : List Char) : Option Nat :=
  match litMatch ("async".data) u with
  | some u1 =>
    let ws := u1.takeWhile isSpaceChar
    if ws.length == 0 then tryArrowTail u
    else
      match tryArrowTail (u1.drop ws.length) with
      | some k => some (5 + ws.length + k)
      | none => tryArrowTail u
  | none => tryArrowTail u

/-- The `\s*(?::\s*[^=]+)?\s*=` segment after the bound name (shared by
`ARROW_FUNCTION` and `VARIABLE_DECL`).  The whitespace before the
annotation has already been consumed by the caller.  When a `':'` is
present, `[^=]+` (greedy, unable to cross an `'='`) runs to the first `'='`
after the colon, which then serves as the final `'='`; skipping the group
instead would put the `':'` where `'='` is required.  Returns the consumed
length including the final `'='`. -/
def tryEqSegment (t : List Char) : Option Nat :=
  match t with
  | '=' :: _ => some 1
  | ':' :: t1 =>
    let body := t1.takeWhile (fun c => c != '=')
    if body.length == 0 then none
    else
      match t1.drop body.length with
      | '=' :: _ => some (1 + body.length + 1)
      | _ => none
  | _ => none

/-- Matcher for `ARROW_FUNCTION =
/^(\s*)(?:export\s+)?(?:const|let|var)\s+(\w+)\s*(?::\s*[^=]+)?\s*=\s*(?:async\s+)?(?:\([^)]*\)|[\w]+)\s*=>/`
at offset `i`. -/
def tryArrowAt (src : List Char) (i : Nat) : Option (TsMatch × Nat) :=
  let t := src.drop i
  let ws1 := t.takeWhile isSpaceChar
  let t1 := t.drop ws1.length
  let (t2, c1) := optLit ("export".data) t1
  match kwConstLetVar t2 with
  | none => none
  | some (t3, ck) =>
    let ws2 := t3.takeWhile isSpaceChar
    if ws2.length == 0 then none
    else
      let t4 := t3.drop ws2.length
      let nm := t4.takeWhile isWordChar
      if nm.length == 0 then none
      else
        let t5 := t4.drop nm.length
        let ws3 := t5.takeWhile isSpaceChar
        match tryEqSegment (t5.drop ws3.length) with
        | none => none
        | some eqLen =>
          let t6 := (t5.drop ws3.length).drop eqLen
          let ws4 := t6.takeWhile isSpaceChar
          match tryArrowAsyncTail (t6.drop ws4.length) with
          | none => none
          | some k =>
            let len := ws1.length + c1 + ck + ws2.length + nm.length + ws3.length
              + eqLen + ws4.length + k
            some (⟨i, ws1.length, nm, t.take len⟩, i + len)

/-- Matcher for
`CLASS_DECL = /^(\s*)(?:export\s+)?(?:abstract\s+)?class\s+(\w+)/` at
offset `i`. -/
def tryClassAt (src : List Char) (i : Nat) : Option (TsMatch × Nat) :=
  let t := src.drop i
  let ws1 := t.takeWhile isSpaceChar
  let t1 := t.drop ws1.length
  let (t2, c1) := optLit ("export".data) t1
  let (t3, c2) := optLit ("abstract".data) t2
  match litMatch ("class".data) t3 with
  | none => none
  | some t4 =>
    let ws2 := t4.takeWhile isSpaceChar
    if ws2.length == 0 then none
    else
      let nm := (t4.drop ws2.length).takeWhile isWordChar
      if nm.length == 0 then none
      else
        let len := ws1.length + c1 + c2 + 5 + ws2.length + nm.length
        some (⟨i, ws1.length, nm, t.take len⟩, i + len)

/-- Matcher for `INTERFACE_DECL = /^(\s*)(?:export\s+)?interface\s+(\w+)/`
at offset `i`. -/
def tryInterfaceAt (src : List Char) (i : Nat) : Option (TsMatch × Nat) :=
  let t := src.drop i
  let ws1 := t.takeWhile isSpaceChar
  let t1 := t.drop ws1.length
  let (t2, c1) := optLit ("export".data) t1
  match litMatch ("interface".data) t2 with
  | none => none
  | some t3 =>
    let ws2 := t3.takeWhile isSpaceChar
    if ws2.length == 0 then none
    else
      let nm := (t3.drop ws2.length).takeWhile isWordChar
      if nm.length == 0 then none
      else
        let len := ws1.length + c1 + 9 + ws2.length + nm.length
        some (⟨i, ws1.length, nm, t.take len⟩, i + len)

/-- Matcher for `TYPE_DECL = /^(\s*)(?:export\s+)?type\s+(\w+)/` at offset
`i`. -/
def tryTypeAt (src : List Char) (i : Nat) : Option (TsMatch × Nat) :=
  let t := src.drop i
  let ws1 := t.takeWhile isSpaceChar
  let t1 := t.drop ws1.length
  let (t2, c1) := optLit ("export".data) t1
  match litMatch ("type".data) t2 with
  | none => none
  | some t3 =>
    let ws2 := t3.takeWhile isSpaceChar
    if ws2.length == 0 then none
    else
      let nm := (t3.drop ws2.length).takeWhile isWordChar
      if nm.length == 0 then none
      else
        let len := ws1.length + c1 + 4 + ws2.length + nm.length
        some (⟨i, ws1.length, nm, t.take len⟩, i + len)

/-- Matcher for `VARIABLE_DECL =
/^(\s*)(?:export\s+)?(?:const|let|var)\s+(\w+)\s*(?::\s*[^=]+)?\s*=/` at
offset `i`. -/
def tryTsVariableAt (src : List Char) (i : Nat) : Option (TsMatch × Nat) :=
  let t := src.drop i
  let ws1 := t.takeWhile isSpaceChar
  let t1 := t.drop ws1.length
  let (t2, c1) := optLit ("export".data) t1
  match kwConstLetVar t2 with
  | none => none
  | some (t3, ck) =>
    let ws2 := t3.takeWhile isSpaceChar
    if ws2.length == 0 then none
    else
      let t4 := t3.drop ws2.length
      let nm := t4.takeWhile isWordChar
      if nm.length == 0 then none
      else
        let t5 := t4.drop nm.length
        let ws3 := t5.takeWhile isSpaceChar
        match tryEqSegment (t5.drop ws3.length) with
        | none => none
        | some eqLen =>
          let len := ws1.length + c1 + ck + ws2.length + nm.length + ws3.length + eqLen
          some (⟨i, ws1.length, nm, t.take len⟩, i + len)

/-- The definition record built by the TS scanners: position of the match
start, column from `match[0].indexOf(name)` (first occurrence — which can
sit inside a keyword such as the `port` of `export`). -/
def mkTsDef (src : List Char) (m : TsMatch) (kind : String) : SymbolDefinition :=
  let pos := getLineColumn src m.index
  let nameIndex := (indexOfList m.name m.matched).getD 0
  { name := ⟨m.name⟩, startLine := pos.1, startColumn := nameIndex + 1,
    endLine := pos.1, endColumn := nameIndex + 1 + m.name.length, kind := kind }

/-- `findFunctions` of the TS analyzer. -/
def findFunctions (src : List Char) : List SymbolDefinition :=
  (execScan (tryFunctionAt src) (lineStarts src) 0).map (mkTsDef src · "function")

/-- `findArrowFunctions`: note there is no deduplication and no indentation
filter in this scan. -/
def findArrowFunctions (src : List Char) : List SymbolDefinition :=
  (execScan (tryArrowAt src) (lineStarts src) 0).map (mkTsDef src · "function")

/-- `findClasses` of the TS analyzer. -/
def findClasses (src : List Char) : List SymbolDefinition :=
  (execScan (tryClassAt src) (lineStarts src) 0).map (mkTsDef src · "class")

/-- `findInterfaces` (reported with kind `class`). -/
def findInterfaces (src : List Char) : List SymbolDefinition :=
  (execScan (tryInterfaceAt src) (lineStarts src) 0).map (mkTsDef src · "class")

/-- `findTypes` (reported with kind `class`). -/
def findTypes (src : List Char) : List SymbolDefinition :=
  (execScan (tryTypeAt src) (lineStarts src) 0).map (mkTsDef src · "class")

/-- Emission loop of `findVariables`, keeping the dedup key
`indent.length : name` alongside each emitted definition (the code's
`seenNames` set holds exactly the keys; `findVariables` below drops the
keys).  The `includes('=>')` test of the code is reproduced even though a
`VARIABLE_DECL` match, which ends at its first `'='`, can never contain
`"=>"`. -/
def variablesKeyedLoop (src : List Char) :
    List TsMatch → List (Nat × List Char) → List ((Nat × List Char) × SymbolDefinition)
  | [], _ => []
  | m :: rest, seen =>
    if (indexOfList ("=>".data) m.matched).isSome then variablesKeyedLoop src rest seen
    else if m.indentLen > 4 then variablesKeyedLoop src rest seen
    else
      let key := (m.indentLen, m.name)
      if seen.contains key then variablesKeyedLoop src rest seen
      else (key, mkTsDef src m "variable") :: variablesKeyedLoop src rest (key :: seen)

def findVariablesKeyed (src : List Char) : List ((Nat × List Char) × SymbolDefinition) :=
  variablesKeyedLoop src (execScan (tryTsVariableAt src) (lineStarts src) 0) []

/-- `findVariables` of the TS analyzer: deduplicated by
`(indentation depth, name)`. -/
def findVariables (src : List Char) : List SymbolDefinition :=
  (findVariablesKeyed src).map (·.2)

/-- Captures of one named-import match
`IMPORT_NAMED = /^import\s+\{([^}]+)\}\s+from\s+['"]([^'"]+)['"]/gm`. -/
structure NamedImportMatch where
  index : Nat
  importList : List Char
deriving DecidableEq, Repr

/-- Matcher for `IMPORT_NAMED` at offset `i` (the brace content may cross
newlines; the two quotes need not be the same character). -/
def tryImportNamedAt (src : List Char) (i : Nat) : Option (NamedImportMatch × Nat) :=
  let t := src.drop i
  match litMatch ("import".data) t with
  | none => none
  | some t1 =>
    let ws1 := t1.takeWhile isSpaceChar
    if ws1.length == 0 then none
    else
      match t1.drop ws1.length with
      | '\x7b' :: t2 =>
        let seg := t2.takeWhile (fun c => c != '\x7d')
        if seg.length == 0 then none
        else
          match t2.drop seg.length with
          | '\x7d' :: t3 =>
            let ws2 := t3.takeWhile isSpaceChar
            if ws2.length == 0 then none
            else
              match litMatch ("from".data) (t3.drop ws2.length) with
              | none => none
              | some t4 =>
                let ws3 := t4.takeWhile isSpaceChar
                if ws3.length == 0 then none
                else
                  match t4.drop ws3.length with
                  | q :: t5 =>
                    if isQuoteChar q then
                      let md := t5.takeWhile (fun c => !isQuoteChar c)
                      if md.length == 0 then none
                      else
                        match t5.drop md.length with
                        | q2 :: _ =>
                          if isQuoteChar q2 then
                            let len := 6 + ws1.length + 1 + seg.length + 1 + ws2.length
                              + 4 + ws3.length + 1 + md.length + 1
                            some (⟨i, seg⟩, i + len)
                          else none
                        | [] => none
                    else none
                  | [] => none
          | _ => none
      | _ => none

/-- Emission for one `IMPORT_NAMED` match: one `import` definition per
listed name (alias if present), spanning the whole line. -/
def namedImportDefs (src : List Char) (lines : List (List Char)) (m : NamedImportMatch) :
    List SymbolDefinition :=
  let pos := getLineColumn src m.index
  (splitOnChar ',' m.importList).flatMap fun imp =>
    let nm := PythonAnalyzer.importPieceBound imp
    if nm != [] && nm.all isWordChar then [importSpanDef lines pos.1 nm]
    else []

/-- Captures of a default- or namespace-import match: offset and bound
name. -/
structure SingleImportMatch where
  index : Nat
  name : List Char
deriving DecidableEq, Repr

/-- Matcher for `IMPORT_DEFAULT = /^import\s+(\w+)\s+from\s+['"]([^'"]+)['"]/`
at offset `i`. -/
def tryImportDefaultAt (src : List Char) (i : Nat) : Option (SingleImportMatch × Nat) :=
  let t := src.drop i
  match litMatch ("import".data) t with
  | none => none
  | some t1 =>
    let ws1 := t1.takeWhile isSpaceChar
    if ws1.length == 0 then none
    else
      let t2 := t1.drop ws1.length
      let nm := t2.takeWhile isWordChar
      if nm.length == 0 then none
      else
        let t3 := t2.drop nm.length
        let ws2 := t3.takeWhile isSpaceChar
        if ws2.length == 0 then none
        else
          match litMatch ("from".data) (t3.drop ws2.length) with
          | none => none
          | some t4 =>
            let ws3 := t4.takeWhile isSpaceChar
            if ws3.length == 0 then none
            else
              match t4.drop ws3.length with
              | q :: t5 =>
                if isQuoteChar q then
                  let md := t5.takeWhile (fun c => !isQuoteChar c)
                  if md.length == 0 then none
                  else
                    match t5.drop md.length with
                    | q2 :: _ =>
                      if isQuoteChar q2 then
                        let len := 6 + ws1.length + nm.length + ws2.length + 4
                          + ws3.length + 1 + md.length + 1
                        some (⟨i, nm⟩, i + len)
                      else none
                    | [] => none
                else none
              | [] => none

/-- Matcher for
`IMPORT_NAMESPACE = /^import\s+\*\s+as\s+(\w+)\s+from\s+['"]([^'"]+)['"]/`
at offset `i`. -/
def tryImportNamespaceAt (src : List Char) (i : Nat) : Option (SingleImportMatch × Nat) :=
  let t := src.drop i
  match litMatch ("import".data) t with
  | none => none
  | some t1 =>
    let ws1 := t1.takeWhile isSpaceChar
    if ws1.length == 0 then none
    else
      match t1.drop ws1.length with
      | '*' :: t2 =>
        let ws2 := t2.takeWhile isSpaceChar
        if ws2.length == 0 then none
        else
          match litMatch ("as".data) (t2.drop ws2.length) with
          | none => none
          | some t3 =>
            let ws3 := t3.takeWhile isSpaceChar
            if ws3.length == 0 then none
            else
              let nm := (t3.drop ws3.length).takeWhile isWordChar
              if nm.length == 0 then none
              else
                let t4 := (t3.drop ws3.length).drop nm.length
                let ws4 := t4.takeWhile isSpaceChar
                if ws4.length == 0 then none
                else
                  match litMatch ("from".data) (t4.drop ws4.length) with
                  | none => none
                  | some t5 =>
                    let ws5 := t5.takeWhile isSpaceChar
                    if ws5.length == 0 then none
                    else
                      match t5.drop ws5.length with
                      | q :: t6 =>
                        if isQuoteChar q then
                          let md := t6.takeWhile (fun c => !isQuoteChar c)
                          if md.length == 0 then none
                          else
                            match t6.drop md.length with
                            | q2 :: _ =>
                              if isQuoteChar q2 then
                                let len := 6 + ws1.length + 1 + ws2.length + 2 + ws3.length
                                  + nm.length + ws4.length + 4 + ws5.length + 1 + md.length + 1
                                some (⟨i, nm⟩, i + len)
                              else none
                            | [] => none
                        else none
                      | [] => none
        | _ => none

/-- A whole-line `import` definition for a default or namespace import. -/
def singleImportDef (src : List Char) (lines : List (List Char)) (m : SingleImportMatch) :
    SymbolDefinition :=
  importSpanDef lines (getLineColumn src m.index).1 m.name

/-- `findImports` of the TS analyzer: named, then default, then
namespace imports. -/
def findImports (src : List Char) (lines : List (List Char)) : List SymbolDefinition :=
  (execScan (tryImportNamedAt src) (lineStarts src) 0).flatMap (namedImportDefs src lines)
    ++ (execScan (tryImportDefaultAt src) (lineStarts src) 0).map (singleImportDef src lines)
    ++ (execScan (tryImportNamespaceAt src) (lineStarts src) 0).map (singleImportDef src lines)

/-- `TypeScriptAnalyzer.findDefinitions`: functions, arrow functions,
classes, interfaces, types, variables, imports — in that order.
(`METHOD_DECL` is declared in the source but never used by
`findDefinitions`.) -/
def findDefinitions (source : String) : List SymbolDefinition :=
  let src := source.data
  let lines := splitOnChar '\n' src
  findFunctions src ++ findArrowFunctions src ++ findClasses src ++ findInterfaces src
    ++ findTypes src ++ findVariables src ++ findImports src lines

/-- Matcher for the `getImportPath` named-import pattern
`'^import\\s+\\\x7b[^\x7d]*\\b' + symbolName + '\\b[^\x7d]*\\\x7d\\s+from\\s+[quote]([^quote]+)[quote]'`
at offset `i`: the symbol must occur with word boundaries inside the brace
segment (whose left neighbour `'\x7b'` is a non-word character). -/
def tryNamedPathAt (nm : List Char) (src : List Char) (i : Nat) : Option (List Char) :=
  let t := src.drop i
  match litMatch ("import".data) t with
  | none => none
  | some t1 =>
    let ws1 := t1.takeWhile isSpaceChar
    if ws1.length == 0 then none
    else
      match t1.drop ws1.length with
      | '\x7b' :: t2 =>
        let seg := t2.takeWhile (fun c => c != '\x7d')
        if !wordOccurs nm (some '\x7b') seg then none
        else
          match t2.drop seg.length with
          | '\x7d' :: t3 =>
            let ws2 := t3.takeWhile isSpaceChar
            if ws2.length == 0 then none
            else
              match litMatch ("from".data) (t3.drop ws2.length) with
              | none => none
              | some t4 =>
                let ws3 := t4.takeWhile isSpaceChar
                if ws3.length == 0 then none
                else
                  match t4.drop ws3.length with
                  | q :: t5 =>
                    if isQuoteChar q then
                      let md := t5.takeWhile (fun c => !isQuoteChar c)
                      if md.length == 0 then none
                      else
                        match t5.drop md.length with
                        | q2 :: _ => if isQuoteChar q2 then some md else none
                        | [] => none
                    else none
                  | [] => none
          | _ => none
      | _ => none

/-- Matcher for the `getImportPath` default-import pattern
`'^import\\s+' + symbolName + '\\s+from\\s+[quote]([^quote]+)[quote]'` at
offset `i` (the literal symbol must be followed by whitespace — an exact
token match). -/
def tryDefaultPathAt (nm : List Char) (src : List Char) (i : Nat) : Option (List Char) :=
  let t := src.drop i
  match litMatch ("import".data) t with
  | none => none
  | some t1 =>
    let ws1 := t1.takeWhile isSpaceChar
    if ws1.length == 0 then none
    else
      match litMatch nm (t1.drop ws1.length) with
      | none => none
      | some t2 =>
        let ws2 := t2.takeWhile isSpaceChar
        if ws2.length == 0 then none
        else
          match litMatch ("from".data) (t2.drop ws2.length) with
          | none => none
          | some t3 =>
            let ws3 := t3.takeWhile isSpaceChar
            if ws3.length == 0 then none
            else
              match t3.drop ws3.length with
              | q :: t4 =>
                if isQuoteChar q then
                  let md := t4.takeWhile (fun c => !isQuoteChar c)
                  if md.length == 0 then none
                  else
                    match t4.drop md.length with
                    | q2 :: _ => if isQuoteChar q2 then some md else none
                    | [] => none
                else none
              | [] => none

/-- Matcher for the `getImportPath` namespace-import pattern
`'^import\\s+\\*\\s+as\\s+' + symbolName + '\\s+from\\s+[quote]([^quote]+)[quote]'`
at offset `i`. -/
def tryNamespacePathAt (nm : List Char) (src : List Char) (i : Nat) : Option (List Char) :=
  let t := src.drop i
  match litMatch ("import".data) t with
  | none => none
  | some t1 =>
    let ws1 := t1.takeWhile isSpaceChar
    if ws1.length == 0 then none
    else
      match t1.drop ws1.length with
      | '*' :: t2 =>
        let ws2 := t2.takeWhile isSpaceChar
        if ws2.length == 0 then none
        else
          match litMatch ("as".data) (t2.drop ws2.length) with
          | none => none
          | some t3 =>
            let ws3 := t3.takeWhile isSpaceChar
            if ws3.length == 0 then none
            else
              match litMatch nm (t3.drop ws3.length) with
              | none => none
              | some t4 =>
                let ws4 := t4.takeWhile isSpaceChar
                if ws4.length == 0 then none
                else
                  match litMatch ("from".data) (t4.drop ws4.length) with
                  | none => none
                  | some t5 =>
                    let ws5 := t5.takeWhile isSpaceChar
                    if ws5.length == 0 then none
                    else
                      match t5.drop ws5.length with
                      | q :: t6 =>
                        if isQuoteChar q then
                          let md := t6.takeWhile (fun c => !isQuoteChar c)
                          if md.length == 0 then none
                          else
                            match t6.drop md.length with
                            | q2 :: _ => if isQuoteChar q2 then some md else none
                            | [] => none
                        else none
                      | [] => none
      | _ => none

/-- The three shape scanners of `TypeScriptAnalyzer.getImportPath`. -/
def importPathNamed (source symbolName : String) : Option String :=
  (scanFirst (tryNamedPathAt symbolName.data source.data) (lineStarts source.data)).map (⟨·⟩)

def importPathDefault (source symbolName : String) : Option String :=
  (scanFirst (tryDefaultPathAt symbolName.data source.data) (lineStarts source.data)).map (⟨·⟩)

def importPathNamespace (source symbolName : String) : Option String :=
  (scanFirst (tryNamespacePathAt symbolName.data source.data) (lineStarts source.data)).map (⟨·⟩)

/-- `TypeScriptAnalyzer.getImportPath`: named, then default, then
namespace import shape — first match wins. -/
def getImportPath (source symbolName : String) : Option String :=
  match importPathNamed source symbolName with
  | some p => some p
  | none =>
    match importPathDefault source symbolName with
    | some p => some p
    | none => importPathNamespace source symbolName

end TypeScriptAnalyzer

/-- `getSymbolAtPosition(source, line, column)` — the Python and TypeScript
analyzers contain character-for-character identical implementations of this
method, embedded once here and installed in both analyzer records below.
Out-of-range positions yield `none`; otherwise the maximal run of word
characters ending at the cursor (`/(\w*)$/` on the prefix) is concatenated
with the maximal run starting at it (`/^(\w*)/` on the suffix); the empty
word yields `none` (`return word || null`; the preceding
`if (!beforeMatch && !afterMatch)` test in the code can never fire since
`\w*` always matches). -/
def getSymbolAtPositionShared (source : String) (line column : Nat) : Option String :=
  let lines := splitOnChar '\n' source.data
  if line < 1 ∨ line > lines.length then none
  else
    let lineText := lines.getD (line - 1) []
    if column < 1 ∨ column > lineText.length + 1 then none
    else
      let beforeCursor := lineText.take (column - 1)
      let afterCursor := lineText.drop (column - 1)
      let word := (beforeCursor.reverse.takeWhile isWordChar).reverse
        ++ afterCursor.takeWhile isWordChar
      if word == [] then none else some ⟨word⟩

/-- `lines.length` for a source text (its number of `'\n'`-separated
lines). -/
def lineCount (source : String) : Nat := (splitOnChar '\n' source.data).length

/-- The length of the 1-based `line`-th line of the text. -/
def lineLength (source : String) (line : Nat) : Nat :=
  ((splitOnChar '\n' source.data).getD (line - 1) []).length

/-- The text of a (single-line) definition's span: the characters of line
`startLine` from column `startColumn` (inclusive) to `endColumn`
(exclusive, "the column immediately following the last character"). -/
def spanText (source : String) (d : SymbolDefinition) : String :=
  ⟨(((splitOnChar '\n' source.data).getD (d.startLine - 1) []).take (d.endColumn - 1)).drop
    (d.startColumn - 1)⟩

/-- The `LanguageAnalyzer` interface of `src/types.ts`. -/
structure LanguageAnalyzer where
  findDefinitions : String → List SymbolDefinition
  getSymbolAtPosition : String → Nat → Nat → Option String
  getImportPath : String → String → Option String

/-- The built-in `PythonAnalyzer` instance. -/
def pythonAnalyzer : LanguageAnalyzer :=
  { findDefinitions := PythonAnalyzer.findDefinitions,
    getSymbolAtPosition := getSymbolAtPositionShared,
    getImportPath := PythonAnalyzer.getImportPath }

/-- The built-in `TypeScriptAnalyzer` instance. -/
def typescriptAnalyzer : LanguageAnalyzer :=
  { findDefinitions := TypeScriptAnalyzer.findDefinitions,
    getSymbolAtPosition := getSymbolAtPositionShared,
    getImportPath := TypeScriptAnalyzer.getImportPath }

/-- A Monaco `Range` (all fields 1-based). -/
structure MonacoRange where
  startLineNumber : Nat
  startColumn : Nat
  endLineNumber : Nat
  endColumn : Nat
deriving DecidableEq, Repr

/-- `DefinitionResult` of `src/types.ts` — what the external collaborator
returns. -/
structure DefinitionResult where
  uri : String
  range : MonacoRange
deriving DecidableEq, Repr

/-- A resolved Monaco definition (`\x7b uri, range \x7d`), the orchestrator's
successful result.  `uri = model.uri` marks a local target. -/
structure MonacoDefinition where
  uri : String
  range : MonacoRange
deriving DecidableEq, Repr

/-- `ExternalNavigationCallback`: the caller-supplied async collaborator.
Its promise may reject; rejection is embedded as `Except.error`. -/
def ExternalNavigationCallback := String → Option String → String → Except String (Option DefinitionResult)

/-- `DefinitionProviderOptions`. -/
structure DefinitionProviderOptions where
  onExternalNavigation : Option ExternalNavigationCallback := none
  includeBuiltins : Bool := false

/-- The part of a Monaco `ITextModel` the provider reads: `getLanguageId()`,
`getValue()` and `uri`. -/
structure TextModel where
  uri : String
  languageId : String
  value : String
deriving DecidableEq, Repr

/-- A Monaco `Position` (1-based `lineNumber` and `column`). -/
structure Position where
  lineNumber : Nat
  column : Nat
deriving DecidableEq, Repr

/-- The cancellation token, observed by the code at exactly two program
points: the synchronous check before `findDefinitions` and the re-check
after awaiting the external collaborator.  The two fields record the value
`isCancellationRequested` has at those two reads (a real token is monotone,
but no property below needs that). -/
structure CancellationToken where
  requestedAtCheck : Bool
  requestedAfterAwait : Bool
deriving DecidableEq, Repr

/-- The state of a `DefinitionProvider`: its options, the analyzer registry
(an insertion-ordered map from language id, embedded as an association
list with `Map.set` semantics), and the `register()` disposables (their
host-editor payload is outside the model, so only their count remains). -/
structure DefinitionProvider where
  options : DefinitionProviderOptions
  analyzers : List (String × LanguageAnalyzer)
  disposables : List Unit

/-- `Map.get`. -/
def lookupAnalyzer (analyzers : List (String × LanguageAnalyzer)) (languageId : String) :
    Option LanguageAnalyzer :=
  (analyzers.find? (fun p => p.1 == languageId)).map (·.2)

/-- `Map.set`: overwrite an existing entry, else append. -/
def setAnalyzer (analyzers : List (String × LanguageAnalyzer)) (languageId : String)
    (analyzer : LanguageAnalyzer) : List (String × LanguageAnalyzer) :=
  match analyzers with
  | [] => [(languageId, analyzer)]
  | (k, v) :: rest =>
    if k == languageId then (languageId, analyzer) :: rest
    else (k, v) :: setAnalyzer rest languageId analyzer

/-- The `DefinitionProvider` constructor: built-in analyzers for `python`,
`typescript` and `javascript` (the latter two sharing one instance). -/
def DefinitionProvider.new (options : DefinitionProviderOptions) : DefinitionProvider :=
  { options := options,
    analyzers := [("python", pythonAnalyzer), ("typescript", typescriptAnalyzer),
      ("javascript", typescriptAnalyzer)],
    disposables := [] }

/-- `registerAnalyzer(languageId, analyzer)`. -/
def DefinitionProvider.registerAnalyzer (self : DefinitionProvider) (languageId : String)
    (analyzer : LanguageAnalyzer) : DefinitionProvider :=
  { self with analyzers := setAnalyzer self.analyzers languageId analyzer }

/-- `register(languageId)`: the host editor's
`monaco.languages.registerDefinitionProvider` handle is pushed onto
`disposables` (the handle itself is host state outside this model). -/
def DefinitionProvider.register (self : DefinitionProvider) : DefinitionProvider :=
  { self with disposables := () :: self.disposables }

/-- `findMatchingDefinition(definitions, symbolName)`: the first definition
with the name whose kind is not `import`, else the first with the name at
all. -/
def findMatchingDefinition (definitions : List SymbolDefinition) (symbolName : String) :
    Option SymbolDefinition :=
  match definitions.find? (fun d => d.name == symbolName && d.kind != "import") with
  | some d => some d
  | none => definitions.find? (fun d => d.name == symbolName)

/-- `provideDefinition(model, position, token)`.  The whole body is embedded
as a total function into `Except String (Option MonacoDefinition)`: an
`Except.error` would be a rejection propagated to the caller, `Except.ok`
a normal return.  The `try/catch` around the collaborator turns its
rejection into `ok none` (after `console.error`, an observability effect
outside the model). -/
def DefinitionProvider.provideDefinition (self : DefinitionProvider) (model : TextModel)
    (position : Position) (token : CancellationToken) :
    Except String (Option MonacoDefinition) :=
  match lookupAnalyzer self.analyzers model.languageId with
  | none => .ok none
  | some analyzer =>
    let source := model.value
    match analyzer.getSymbolAtPosition source position.lineNumber position.column with
    | none => .ok none
    | some symbolName =>
      -- `if (!symbolName)` also rejects the empty string
      if symbolName == "" then .ok none
      else if token.requestedAtCheck then .ok none
      else
        let definitions := analyzer.findDefinitions source
        match findMatchingDefinition definitions symbolName with
        | some localDefinition =>
          .ok (some { uri := model.uri,
                      range := { startLineNumber := localDefinition.startLine,
                                 startColumn := localDefinition.startColumn,
                                 endLineNumber := localDefinition.endLine,
                                 endColumn := localDefinition.endColumn } })
        | none =>
          match analyzer.getImportPath source symbolName, self.options.onExternalNavigation with
          | some importPath, some onExternalNavigation =>
            -- `if (importPath && ...)`: the empty path is falsy
            if importPath == "" then .ok none
            else
              match onExternalNavigation symbolName (some importPath) model.uri with
              | .error _ => .ok none
              | .ok none => .ok none
              | .ok (some externalDef) =>
                if token.requestedAfterAwait then .ok none
                else .ok (some { uri := externalDef.uri, range := externalDef.range })
          | _, _ => .ok none

/-- `dispose()`: every registered disposable is disposed (a host-editor
effect outside the model), the disposables list is truncated to length 0
and the analyzer registry is cleared. -/
def DefinitionProvider.dispose (self : DefinitionProvider) : DefinitionProvider :=
  { self with disposables := [], analyzers := [] }

/-! Concrete artifacts used to instantiate the theorems below. -/

/-- A collaborator whose promise always rejects. -/
def cbFail : ExternalNavigationCallback := fun _ _ _ => .error "network error"

/-- A collaborator that always yields a valid external target. -/
def cbTarget : ExternalNavigationCallback :=
  fun _ _ _ => .ok (some { uri := "ext.py", range := ⟨1, 1, 1, 1⟩ })

/-- A provider with default options (no external collaborator). -/
def providerPlain : DefinitionProvider := DefinitionProvider.new {}

/-- A provider whose external collaborator always rejects. -/
def providerFail : DefinitionProvider :=
  DefinitionProvider.new { onExternalNavigation := some cbFail }

/-- A provider whose external collaborator always yields a target. -/
def providerTarget : DefinitionProvider :=
  DefinitionProvider.new { onExternalNavigation := some cbTarget }

end MDP

namespace MDP

/-! ## Generic lemmas about the scanning combinators -/

theorem execScan_mem {α : Type} {tryAt : Nat → Option (α × Nat)} :
    ∀ {ps : List Nat} {li : Nat} {a : α}, a ∈ execScan tryAt ps li →
      ∃ i e, tryAt i = some (a, e) := by
  intro ps
  induction ps with
  | nil => intro li a h; simp [execScan] at h
  | cons i rest ih =>
    intro li a h
    unfold execScan at h
    by_cases hlt : i < li
    · rw [if_pos hlt] at h; exact ih h
    · rw [if_neg hlt] at h
      rcases htry : tryAt i with _ | ⟨b, e⟩ <;> rw [htry] at h
      · exact ih h
      · rcases List.mem_cons.mp h with h | h
        · exact ⟨i, e, by rw [htry, h]⟩
        · exact ih h

theorem scanFirst_eq_some {α : Type} {tryAt : Nat → Option α} :
    ∀ {ps : List Nat} {a : α}, scanFirst tryAt ps = some a →
      ∃ i, i ∈ ps ∧ tryAt i = some a := by
  intro ps
  induction ps with
  | nil => intro a h; simp [scanFirst] at h
  | cons i rest ih =>
    intro a h
    unfold scanFirst at h
    rcases htry : tryAt i with _ | b <;> rw [htry] at h
    · rcases ih h with ⟨j, hj, hja⟩
      exact ⟨j, List.mem_cons_of_mem _ hj, hja⟩
    · simp at h
      subst h
      exact ⟨i, List.mem_cons_self _ _, htry⟩

theorem takeWhile_pred {p : Char → Bool} :
    ∀ {l : List Char} {c : Char}, c ∈ l.takeWhile p → p c = true := by
  intro l
  induction l with
  | nil => intro c h; simp at h
  | cons d rest ih =>
    intro c h
    rw [List.takeWhile_cons] at h
    by_cases hd : p d
    · rw [if_pos hd] at h
      rcases List.mem_cons.mp h with h | h
      · rwa [h]
      · exact ih h
    · rw [if_neg hd] at h; simp at h

/-! ## C10: dispose -/

/-- C10: `dispose()` empties the analyzer registry and the disposables
list, is idempotent, and afterwards `provideDefinition` returns `ok none`
for every language, text and position (the registry lookup fails). -/
theorem claim_C10_dispose : ∀ (p : DefinitionProvider),
    p.dispose.analyzers = [] ∧ p.dispose.disposables = []
    ∧ p.dispose.dispose = p.dispose
    ∧ ∀ (model : TextModel) (position : Position) (token : CancellationToken),
        p.dispose.provideDefinition model position token = .ok none := by
  intro p
  refine ⟨rfl, rfl, rfl, ?_⟩
  intro model position token
  rfl

/-! ## C8: symbolAtPosition boundary behaviour -/

/-- C8: `getSymbolAtPosition` (the identical method of both analyzers)
returns `none` for `line = 0`, `line = lineCount + 1`, `column = 0` and
`column = lineLength + 2`, and — being a total Lean function — never
raises. -/
theorem claim_C8_boundary :
    (∀ (source : String) (column : Nat), getSymbolAtPositionShared source 0 column = none)
    ∧ (∀ (source : String) (column : Nat),
        getSymbolAtPositionShared source (lineCount source + 1) column = none)
    ∧ (∀ (source : String) (line : Nat), getSymbolAtPositionShared source line 0 = none)
    ∧ (∀ (source : String) (line : Nat), 1 ≤ line → line ≤ lineCount source →
        getSymbolAtPositionShared source line (lineLength source line + 2) = none) := by
  refine ⟨?_, ?_, ?_, ?_⟩
  · intro source column
    simp only [getSymbolAtPositionShared]
    rw [if_pos (Or.inl Nat.one_pos)]
  · intro source column
    simp only [getSymbolAtPositionShared, lineCount]
    rw [if_pos (Or.inr (Nat.lt_succ_self _))]
  · intro source line
    simp only [getSymbolAtPositionShared]
    by_cases h : line < 1 ∨ line > (splitOnChar '\n' source.data).length
    · rw [if_pos h]
    · rw [if_neg h, if_pos (Or.inl Nat.one_pos)]
  · intro source line h1 h2
    simp only [getSymbolAtPositionShared, lineLength]
    rw [if_neg (by unfold lineCount at h2; omega)]
    rw [if_pos (Or.inr (by omega))]

/-- Witness for C8 at a concrete text: `"ab\ncd"` has 2 lines of length 2,
and position (1, 4) — that is column `lineLength + 2` — yields `none`. -/
theorem claim_C8_witness : getSymbolAtPositionShared "ab\ncd" 1 4 = none := by
  have h := claim_C8_boundary.2.2.2 "ab\ncd" 1 (by decide) (by decide)
  simpa using h

/-! ## C3: cancellation semantics of provideDefinition -/

/-- C3: (1) if cancellation is already requested at the synchronous check,
`provideDefinition` returns `ok none` — for every provider, hence for every
external collaborator, which is therefore never invoked; (2) if cancellation
is requested while awaiting the collaborator, a valid target produced by it
is discarded and `ok none` is returned. -/
theorem claim_C3_cancellation :
    (∀ (p : DefinitionProvider) (model : TextModel) (position : Position)
        (token : CancellationToken), token.requestedAtCheck = true →
        p.provideDefinition model position token = .ok none)
    ∧ (∀ (p : DefinitionProvider) (model : TextModel) (position : Position)
        (token : CancellationToken) (analyzer : LanguageAnalyzer)
        (symbolName importPath : String) (cb : ExternalNavigationCallback)
        (target : DefinitionResult),
        lookupAnalyzer p.analyzers model.languageId = some analyzer →
        analyzer.getSymbolAtPosition model.value position.lineNumber position.column
          = some symbolName →
        symbolName ≠ "" →
        token.requestedAtCheck = false →
        findMatchingDefinition (analyzer.findDefinitions model.value) symbolName = none →
        analyzer.getImportPath model.value symbolName = some importPath →
        importPath ≠ "" →
        p.options.onExternalNavigation = some cb →
        cb symbolName (some importPath) model.uri = .ok (some target) →
        token.requestedAfterAwait = true →
        p.provideDefinition model position token = .ok none) := by
  constructor
  · intro p model position token h
    rcases hl : lookupAnalyzer p.analyzers model.languageId with _ | analyzer
    · simp [DefinitionProvider.provideDefinition, hl]
    · rcases hs : analyzer.getSymbolAtPosition model.value position.lineNumber position.column
        with _ | sym
      · simp [DefinitionProvider.provideDefinition, hl, hs]
      · simp [DefinitionProvider.provideDefinition, hl, hs, h]
  · intro p model position token analyzer symbolName importPath cb target
      hl hs hsne hac hfmd hip hpne hcb hres hafter
    simp [DefinitionProvider.provideDefinition, hl, hs, hac, hfmd, hip, hcb, hres, hafter,
      hsne, hpne]

/-- Witness for C3 (second part): with a collaborator that yields a valid
target but a token cancelled during the await, resolution of `numpy` in
`import numpy as np` (no local match, import path `numpy`) returns
`ok none`. -/
theorem claim_C3_witness :
    providerTarget.provideDefinition ⟨"u", "python", "import numpy as np"⟩ ⟨1, 9⟩
      ⟨false, true⟩ = .ok none :=
  claim_C3_cancellation.2 providerTarget ⟨"u", "python", "import numpy as np"⟩ ⟨1, 9⟩
    ⟨false, true⟩ pythonAnalyzer "numpy" "numpy" cbTarget
    { uri := "ext.py", range := ⟨1, 1, 1, 1⟩ }
    rfl rfl (by decide) rfl rfl rfl (by decide) rfl rfl rfl

/-! ## C9: cancellation already requested on entry -/

/-- C9: with a registered language and a cursor touching an identifier, a
token already cancelled at the synchronous check makes `provideDefinition`
return `ok none` — even when the document's definitions contain a local
non-import definition of that identifier, and for every behaviour of
`findDefinitions` (the provider is universally quantified, so the result
does not depend on extraction at all). -/
theorem claim_C9_cancelled_before_extraction :
    ∀ (p : DefinitionProvider) (model : TextModel) (position : Position)
      (token : CancellationToken) (analyzer : LanguageAnalyzer) (symbolName : String),
      lookupAnalyzer p.analyzers model.languageId = some analyzer →
      analyzer.getSymbolAtPosition model.value position.lineNumber position.column
        = some symbolName →
      symbolName ≠ "" →
      (∃ d ∈ analyzer.findDefinitions model.value, d.name = symbolName ∧ d.kind ≠ "import") →
      token.requestedAtCheck = true →
      p.provideDefinition model position token = .ok none := by
  intro p model position token analyzer symbolName hl hs hsne _ hac
  simp [DefinitionProvider.provideDefinition, hl, hs, hac, beq_eq_false_iff_ne.mpr hsne]

/-- Witness for C9: `path = 1` has a local variable definition of `path`,
yet the pre-cancelled token forces `ok none`. -/
theorem claim_C9_witness :
    providerPlain.provideDefinition ⟨"u", "python", "path = 1"⟩ ⟨1, 2⟩ ⟨true, false⟩
      = .ok none :=
  claim_C9_cancelled_before_extraction providerPlain ⟨"u", "python", "path = 1"⟩ ⟨1, 2⟩
    ⟨true, false⟩ pythonAnalyzer "path" rfl rfl (by decide) (by decide) rfl

/-! ## C7: collaborator failures are swallowed -/

/-- C7: `provideDefinition` never propagates a failure (its result is
`Except.ok` on every input), and when the external collaborator is reached
and rejects, the result is `ok none`. -/
theorem claim_C7_failure_swallowed :
    (∀ (p : DefinitionProvider) (model : TextModel) (position : Position)
        (token : CancellationToken), ∃ r, p.provideDefinition model position token = .ok r)
    ∧ (∀ (p : DefinitionProvider) (model : TextModel) (position : Position)
        (token : CancellationToken) (analyzer : LanguageAnalyzer)
        (symbolName importPath : String) (cb : ExternalNavigationCallback) (err : String),
        lookupAnalyzer p.analyzers model.languageId = some analyzer →
        analyzer.getSymbolAtPosition model.value position.lineNumber position.column
          = some symbolName →
        symbolName ≠ "" →
        token.requestedAtCheck = false →
        findMatchingDefinition (analyzer.findDefinitions model.value) symbolName = none →
        analyzer.getImportPath model.value symbolName = some importPath →
        importPath ≠ "" →
        p.options.onExternalNavigation = some cb →
        cb symbolName (some importPath) model.uri = .error err →
        p.provideDefinition model position token = .ok none) := by
  constructor
  · intro p model position token
    simp only [DefinitionProvider.provideDefinition]
    repeat' split
    all_goals exact ⟨_, rfl⟩
  · intro p model position token analyzer symbolName importPath cb err
      hl hs hsne hac hfmd hip hpne hcb hres
    simp [DefinitionProvider.provideDefinition, hl, hs, hac, hfmd, hip, hcb, hres,
      hsne, hpne]

/-- Witness for C7: a collaborator that always rejects, reached via the
unresolved symbol `numpy` of `import numpy as np`, yields `ok none`. -/
theorem claim_C7_witness :
    providerFail.provideDefinition ⟨"u", "python", "import numpy as np"⟩ ⟨1, 9⟩
      ⟨false, false⟩ = .ok none :=
  claim_C7_failure_swallowed.2 providerFail ⟨"u", "python", "import numpy as np"⟩ ⟨1, 9⟩
    ⟨false, false⟩ pythonAnalyzer "numpy" "numpy" cbFail "network error"
    rfl rfl (by decide) rfl rfl rfl (by decide) rfl rfl

/-! ## C2: local match precedence -/

/-- C2: when the extracted definitions contain both a non-import and
an import definition of the resolved identifier (and no cancellation is
requested at the check), `provideDefinition` returns a local target — the
span of a non-import definition, with the document's own uri — never
the import definition's span and never an external target. -/
theorem claim_C2_local_precedence :
    ∀ (p : DefinitionProvider) (model : TextModel) (position : Position)
      (token : CancellationToken) (analyzer : LanguageAnalyzer) (symbolName : String),
      lookupAnalyzer p.analyzers model.languageId = some analyzer →
      analyzer.getSymbolAtPosition model.value position.lineNumber position.column
        = some symbolName →
      symbolName ≠ "" →
      token.requestedAtCheck = false →
      (∃ d ∈ analyzer.findDefinitions model.value, d.name = symbolName ∧ d.kind ≠ "import") →
      (∃ d ∈ analyzer.findDefinitions model.value, d.name = symbolName ∧ d.kind = "import") →
      ∃ d, d ∈ analyzer.findDefinitions model.value ∧ d.name = symbolName ∧ d.kind ≠ "import"
        ∧ p.provideDefinition model position token
          = .ok (some { uri := model.uri,
                        range := ⟨d.startLine, d.startColumn, d.endLine, d.endColumn⟩ }) := by
  intro p model position token analyzer symbolName hl hs hsne hac hex _
  have hsome : ((analyzer.findDefinitions model.value).find?
      (fun d => d.name == symbolName && d.kind != "import")).isSome := by
    rw [List.find?_isSome]
    rcases hex with ⟨d, hd, hname, hkind⟩
    exact ⟨d, hd, by simp [hname, hkind]⟩
  rcases ho : (analyzer.findDefinitions model.value).find?
      (fun d => d.name == symbolName && d.kind != "import") with _ | d
  · rw [ho] at hsome; simp at hsome
  · have hq := List.find?_some ho
    have hmem := List.mem_of_find?_eq_some ho
    rw [Bool.and_eq_true] at hq
    have hname : d.name = symbolName := by simpa using hq.1
    have hkind : d.kind ≠ "import" := by simpa using hq.2
    have hfmd : findMatchingDefinition (analyzer.findDefinitions model.value) symbolName
        = some d := by
      unfold findMatchingDefinition
      rw [ho]
    refine ⟨d, hmem, hname, hkind, ?_⟩
    simp [DefinitionProvider.provideDefinition, hl, hs, hac, hfmd,
      beq_eq_false_iff_ne.mpr hsne]

/-- Witness for C2: `from os import path` plus a local assignment `path = 1`
— the cursor on `path` resolves to the local variable's span (2,1)-(2,5),
not to the import. -/
theorem claim_C2_witness :
    ∃ d, d ∈ pythonAnalyzer.findDefinitions "from os import path\npath = 1"
      ∧ d.name = "path" ∧ d.kind ≠ "import"
      ∧ providerPlain.provideDefinition ⟨"u", "python", "from os import path\npath = 1"⟩
          ⟨2, 1⟩ ⟨false, false⟩
        = .ok (some { uri := "u",
                      range := ⟨d.startLine, d.startColumn, d.endLine, d.endColumn⟩ }) :=
  claim_C2_local_precedence providerPlain ⟨"u", "python", "from os import path\npath = 1"⟩
    ⟨2, 1⟩ ⟨false, false⟩ pythonAnalyzer "path" rfl rfl (by decide) rfl
    (by decide) (by decide)

/-! ## C1: span arithmetic of emitted definitions

Every non-import definition is pushed with
`endColumn = startColumn + name.length` on a single line; the following
lemmas check each scan. -/

theorem paramsLoop_shape {funcLine : Nat} :
    ∀ {ps : List (List Char)} {off : Nat} {d : SymbolDefinition},
      d ∈ PythonAnalyzer.paramsLoop funcLine ps off →
      d.kind = "parameter" ∧ d.endLine = d.startLine
        ∧ d.endColumn = d.startColumn + d.name.length := by
  intro ps
  induction ps with
  | nil => intro off d h; simp [PythonAnalyzer.paramsLoop] at h
  | cons param rest ih =>
    intro off d h
    unfold PythonAnalyzer.paramsLoop at h
    simp only at h
    split at h
    · exact ih h
    · split at h
      · rcases List.mem_cons.mp h with h | h
        · subst h
          refine ⟨rfl, rfl, ?_⟩
          simp [String.length]
        · exact ih h
      · exact ih h

theorem findParameters_shape {f : List Char} {funcLine : Nat} {d : SymbolDefinition}
    (h : d ∈ PythonAnalyzer.findParameters f funcLine) :
    d.kind = "parameter" ∧ d.endLine = d.startLine
      ∧ d.endColumn = d.startColumn + d.name.length := by
  unfold PythonAnalyzer.findParameters at h
  split at h
  · simp at h
  · simp only at h
    split at h
    · simp at h
    · exact paramsLoop_shape h

theorem pyFindFunctions_shape {src : List Char} {d : SymbolDefinition}
    (h : d ∈ PythonAnalyzer.findFunctions src) :
    (d.kind = "function" ∨ d.kind = "parameter") ∧ d.endLine = d.startLine
      ∧ d.endColumn = d.startColumn + d.name.length := by
  unfold PythonAnalyzer.findFunctions at h
  rcases List.mem_flatMap.mp h with ⟨m, _, hd⟩
  rcases List.mem_cons.mp hd with hd | hd
  · subst hd
    refine ⟨Or.inl rfl, rfl, ?_⟩
    simp [String.length]
  · rcases findParameters_shape hd with ⟨hk, h1, h2⟩
    exact ⟨Or.inr hk, h1, h2⟩

theorem pyFindClasses_shape {src : List Char} {d : SymbolDefinition}
    (h : d ∈ PythonAnalyzer.findClasses src) :
    d.kind = "class" ∧ d.endLine = d.startLine
      ∧ d.endColumn = d.startColumn + d.name.length := by
  unfold PythonAnalyzer.findClasses at h
  rcases List.mem_map.mp h with ⟨m, _, hd⟩
  subst hd
  refine ⟨rfl, rfl, ?_⟩
  simp [String.length]

theorem pyVariablesLoop_shape {src : List Char} :
    ∀ {ms : List PythonAnalyzer.VarMatch} {seen : List (Nat × List Char)}
      {d : SymbolDefinition}, d ∈ PythonAnalyzer.variablesLoop src ms seen →
      d.kind = "variable" ∧ d.endLine = d.startLine
        ∧ d.endColumn = d.startColumn + d.name.length := by
  intro ms
  induction ms with
  | nil => intro seen d h; simp [PythonAnalyzer.variablesLoop] at h
  | cons m rest ih =>
    intro seen d h
    unfold PythonAnalyzer.variablesLoop at h
    simp only at h
    split at h
    · exact ih h
    · split at h
      · exact ih h
      · split at h
        · exact ih h
        · rcases List.mem_cons.mp h with h | h
          · subst h
            refine ⟨rfl, rfl, ?_⟩
            simp [String.length]
          · exact ih h

theorem pyFindVariables_shape {src : List Char} {d : SymbolDefinition}
    (h : d ∈ PythonAnalyzer.findVariables src) :
    d.kind = "variable" ∧ d.endLine = d.startLine
      ∧ d.endColumn = d.startColumn + d.name.length :=
  pyVariablesLoop_shape h

theorem pyFromImportDefs_kind {src : List Char} {lines : List (List Char)}
    {m : PythonAnalyzer.FromImportMatch} {d : SymbolDefinition}
    (h : d ∈ PythonAnalyzer.fromImportDefs src lines m) : d.kind = "import" := by
  unfold PythonAnalyzer.fromImportDefs at h
  rcases List.mem_flatMap.mp h with ⟨imp, _, hd⟩
  simp only at hd
  split at hd
  · rcases List.mem_cons.mp hd with hd | hd
    · subst hd; rfl
    · simp at hd
  · simp at hd

theorem pyFindImports_kind {src : List Char} {lines : List (List Char)}
    {d : SymbolDefinition} (h : d ∈ PythonAnalyzer.findImports src lines) :
    d.kind = "import" := by
  unfold PythonAnalyzer.findImports at h
  rcases List.mem_append.mp h with h | h
  · rcases List.mem_flatMap.mp h with ⟨m, _, hd⟩
    exact pyFromImportDefs_kind hd
  · rcases List.mem_flatMap.mp h with ⟨m, _, hd⟩
    unfold PythonAnalyzer.simpleImportDefs at hd
    rcases List.mem_cons.mp hd with hd | hd
    · subst hd; rfl
    · simp at hd

theorem mkTsDef_shape {src : List Char} {m : TypeScriptAnalyzer.TsMatch} {k : String} :
    (TypeScriptAnalyzer.mkTsDef src m k).kind = k
      ∧ (TypeScriptAnalyzer.mkTsDef src m k).endLine
          = (TypeScriptAnalyzer.mkTsDef src m k).startLine
      ∧ (TypeScriptAnalyzer.mkTsDef src m k).endColumn
          = (TypeScriptAnalyzer.mkTsDef src m k).startColumn
            + (TypeScriptAnalyzer.mkTsDef src m k).name.length := by
  refine ⟨rfl, rfl, ?_⟩
  simp [TypeScriptAnalyzer.mkTsDef, String.length]

theorem tsVariablesKeyedLoop_mk {src : List Char} :
    ∀ {ms : List TypeScriptAnalyzer.TsMatch} {seen : List (Nat × List Char)}
      {pr : (Nat × List Char) × SymbolDefinition},
      pr ∈ TypeScriptAnalyzer.variablesKeyedLoop src ms seen →
      ∃ m, pr.2 = TypeScriptAnalyzer.mkTsDef src m "variable" := by
  intro ms
  induction ms with
  | nil => intro seen pr h; simp [TypeScriptAnalyzer.variablesKeyedLoop] at h
  | cons m rest ih =>
    intro seen pr h
    unfold TypeScriptAnalyzer.variablesKeyedLoop at h
    simp only at h
    split at h
    · exact ih h
    · split at h
      · exact ih h
      · split at h
        · exact ih h
        · rcases List.mem_cons.mp h with h | h
          · subst h; exact ⟨m, rfl⟩
          · exact ih h

theorem tsFindImports_kind {src : List Char} {lines : List (List Char)}
    {d : SymbolDefinition} (h : d ∈ TypeScriptAnalyzer.findImports src lines) :
    d.kind = "import" := by
  unfold TypeScriptAnalyzer.findImports at h
  rcases List.mem_append.mp h with h | h
  · rcases List.mem_append.mp h with h | h
    · rcases List.mem_flatMap.mp h with ⟨m, _, hd⟩
      unfold TypeScriptAnalyzer.namedImportDefs at hd
      rcases List.mem_flatMap.mp hd with ⟨imp, _, hd2⟩
      simp only at hd2
      split at hd2
      · rcases List.mem_cons.mp hd2 with hd2 | hd2
        · subst hd2; rfl
        · simp at hd2
      · simp at hd2
    · rcases List.mem_map.mp h with ⟨m, _, hd⟩
      subst hd; rfl
  · rcases List.mem_map.mp h with ⟨m, _, hd⟩
    subst hd; rfl

theorem tsFindDefinitions_shape {source : String} {d : SymbolDefinition}
    (h : d ∈ TypeScriptAnalyzer.findDefinitions source) (hk : d.kind ≠ "import") :
    d.endLine = d.startLine ∧ d.endColumn = d.startColumn + d.name.length := by
  unfold TypeScriptAnalyzer.findDefinitions at h
  simp only at h
  have hmk : ∀ (m : TypeScriptAnalyzer.TsMatch) (k : String),
      d = TypeScriptAnalyzer.mkTsDef source.data m k →
      d.endLine = d.startLine ∧ d.endColumn = d.startColumn + d.name.length := by
    intro m k he
    rw [he]
    exact mkTsDef_shape.2
  rcases List.mem_append.mp h with h | h
  · rcases List.mem_append.mp h with h | h
    · rcases List.mem_append.mp h with h | h
      · rcases List.mem_append.mp h with h | h
        · rcases List.mem_append.mp h with h | h
          · rcases List.mem_append.mp h with h | h
            · rcases List.mem_map.mp h with ⟨m, _, hd⟩
              exact hmk m _ hd.symm
            · rcases List.mem_map.mp h with ⟨m, _, hd⟩
              exact hmk m _ hd.symm
          · rcases List.mem_map.mp h with ⟨m, _, hd⟩
            exact hmk m _ hd.symm
        · rcases List.mem_map.mp h with ⟨m, _, hd⟩
          exact hmk m _ hd.symm
      · rcases List.mem_map.mp h with ⟨m, _, hd⟩
        exact hmk m _ hd.symm
    · rcases List.mem_map.mp (by exact h : d ∈ (TypeScriptAnalyzer.findVariablesKeyed
          source.data).map (·.2)) with ⟨pr, hpr, hd⟩
      rcases tsVariablesKeyedLoop_mk hpr with ⟨m, hm⟩
      exact hmk m _ (hd.symm.trans hm)
  · exact absurd (tsFindImports_kind h) hk

theorem pyFindDefinitions_shape {source : String} {d : SymbolDefinition}
    (h : d ∈ PythonAnalyzer.findDefinitions source) (hk : d.kind ≠ "import") :
    d.endLine = d.startLine ∧ d.endColumn = d.startColumn + d.name.length := by
  unfold PythonAnalyzer.findDefinitions at h
  simp only at h
  rcases List.mem_append.mp h with h | h
  · rcases List.mem_append.mp h with h | h
    · rcases List.mem_append.mp h with h | h
      · exact (pyFindFunctions_shape h).2
      · exact (pyFindClasses_shape h).2
    · exact (pyFindVariables_shape h).2
  · exact absurd (pyFindImports_kind h) hk

/-- C1 (amended): every non-import definition emitted by the built-in
Python or TypeScript scanner satisfies `endLine = startLine` and
`endColumn - startColumn = length(name)`.  (The substring clause of the
original claim and its application to import definitions fail; see the
counterexample.) -/
theorem claim_C1_span_arithmetic :
    ∀ (source : String) (d : SymbolDefinition),
      (d ∈ PythonAnalyzer.findDefinitions source
        ∨ d ∈ TypeScriptAnalyzer.findDefinitions source) →
      d.kind ≠ "import" →
      d.endLine = d.startLine ∧ d.endColumn = d.startColumn + d.name.length := by
  intro source d h hk
  rcases h with h | h
  · exact pyFindDefinitions_shape h hk
  · exact tsFindDefinitions_shape h hk

/-- Counterexample to C1 as stated: in
`"def  f():\nimport numpy as np"` the function definition's span (two
spaces after `def` shift it) reads `" "`, not `"f"`, and the import
definition spans the whole line, so `endColumn - startColumn = 17 ≠ 2`.
So not every emitted definition satisfies the claimed substring and length
equations. -/
theorem claim_C1_counterexample :
    ((PythonAnalyzer.findDefinitions "def  f():\nimport numpy as np").all
        (fun d => spanText "def  f():\nimport numpy as np" d == d.name
          && d.endColumn - d.startColumn == d.name.length)) = false
    ∧ (∃ d ∈ PythonAnalyzer.findDefinitions "def  f():\nimport numpy as np",
        d.kind = "function" ∧ spanText "def  f():\nimport numpy as np" d ≠ d.name)
    ∧ (∃ d ∈ PythonAnalyzer.findDefinitions "def  f():\nimport numpy as np",
        d.kind = "import" ∧ d.endColumn - d.startColumn ≠ d.name.length) := by
  refine ⟨by decide, by decide, by decide⟩

/-! ## C4: parameters are never emitted

`findFunctions` passes `match[0]` of `FUNCTION_DEF` to `findParameters`;
that string ends at the opening parenthesis and contains no `')'`, so the
`/\(([^)]*)\)/` probe inside `findParameters` never matches and no
`parameter` definition is ever produced. -/

theorem findIdx?_eq_none_of_not_mem {l : List Char} {c : Char} (h : c ∉ l) :
    l.findIdx? (· == c) = none := by
  rw [List.findIdx?_eq_none_iff]
  intro x hx
  by_cases hxc : x = c
  · exact absurd (hxc ▸ hx) h
  · simp [hxc]

theorem findParameters_nil {f : List Char} {funcLine : Nat} (h : ')' ∉ f) :
    PythonAnalyzer.findParameters f funcLine = [] := by
  unfold PythonAnalyzer.findParameters
  rcases hp : f.findIdx? (· == '(') with _ | p
  · rfl
  · simp only
    rw [findIdx?_eq_none_of_not_mem (fun hc => h (List.mem_of_mem_drop hc))]

theorem tryFunctionDefAt_no_rparen {src : List Char} {i : Nat}
    {m : PythonAnalyzer.FuncMatch} {e : Nat}
    (h : PythonAnalyzer.tryFunctionDefAt src i = some (m, e)) : ')' ∉ m.matched := by
  unfold PythonAnalyzer.tryFunctionDefAt at h
  simp only at h
  split at h
  · exact absurd h (by simp)
  · split at h
    · exact absurd h (by simp)
    · split at h
      · exact absurd h (by simp)
      · split at h
        · simp only [Option.some.injEq, Prod.mk.injEq] at h
          have hm := h.1
          subst hm
          simp only [PythonAnalyzer.FuncMatch.matched]
          intro hc
          rcases List.mem_append.mp hc with hc | hc
          · rcases List.mem_append.mp hc with hc | hc
            · rcases List.mem_append.mp hc with hc | hc
              · rcases List.mem_append.mp hc with hc | hc
                · rcases List.mem_append.mp hc with hc | hc
                  · have := takeWhile_pred hc
                    simp [isSpaceChar] at this
                  · simp at hc
                · have := takeWhile_pred hc
                  simp [isSpaceChar] at this
              · have := takeWhile_pred hc
                simp [isWordChar] at this
            · have := takeWhile_pred hc
              simp [isSpaceChar] at this
          · simp at hc
        · exact absurd h (by simp)

theorem pyFindFunctions_kind {src : List Char} {d : SymbolDefinition}
    (h : d ∈ PythonAnalyzer.findFunctions src) : d.kind = "function" := by
  unfold PythonAnalyzer.findFunctions at h
  rcases List.mem_flatMap.mp h with ⟨m, hm, hd⟩
  rcases List.mem_cons.mp hd with hd | hd
  · subst hd; rfl
  · rcases execScan_mem hm with ⟨i, e, htry⟩
    rw [findParameters_nil (tryFunctionDefAt_no_rparen htry)] at hd
    simp at hd

/-- C4 (evaluating the code): the Python scanner emits no `parameter`
definition for any source text whatsoever — in particular not for
`"def greet(name):"`, where the specified behaviour is one `parameter`
definition named `name` on line 1. -/
theorem claim_C4_parameters_never_emitted :
    (∀ source : String,
      (PythonAnalyzer.findDefinitions source).filter (fun d => d.kind == "parameter") = [])
    ∧ (PythonAnalyzer.findDefinitions "def greet(name):\n    pass").map
        (fun d => (d.name, d.kind)) = [("greet", "function")] := by
  constructor
  · intro source
    rw [List.filter_eq_nil_iff]
    intro d hd hp
    have hcontra : d.kind ≠ "parameter" := by
      unfold PythonAnalyzer.findDefinitions at hd
      simp only at hd
      rcases List.mem_append.mp hd with hd | hd
      · rcases List.mem_append.mp hd with hd | hd
        · rcases List.mem_append.mp hd with hd | hd
          · rw [pyFindFunctions_kind hd]; decide
          · rw [(pyFindClasses_shape hd).1]; decide
        · rw [(pyFindVariables_shape hd).1]; decide
      · rw [pyFindImports_kind hd]; decide
    exact hcontra (by simpa using hp)
  · decide

/-! ## C6: deduplication of the TS variable and arrow-function scans -/

theorem tsVariablesKeyedLoop_nodup {src : List Char} :
    ∀ {ms : List TypeScriptAnalyzer.TsMatch} {seen : List (Nat × List Char)},
      (∀ k ∈ (TypeScriptAnalyzer.variablesKeyedLoop src ms seen).map (·.1), k ∉ seen)
      ∧ ((TypeScriptAnalyzer.variablesKeyedLoop src ms seen).map (·.1)).Nodup := by
  intro ms
  induction ms with
  | nil =>
    intro seen
    constructor
    · intro k hk; simp [TypeScriptAnalyzer.variablesKeyedLoop] at hk
    · simp [TypeScriptAnalyzer.variablesKeyedLoop]
  | cons m rest ih =>
    intro seen
    unfold TypeScriptAnalyzer.variablesKeyedLoop
    simp only
    split
    · exact ih
    · split
      · exact ih
      · split
        · exact ih
        · rename_i hnotseen
          have hkey : (m.indentLen, m.name) ∉ seen := by
            intro hmem
            exact hnotseen (by simpa using hmem)
          constructor
          · intro k hk
            rw [List.map_cons] at hk
            rcases List.mem_cons.mp hk with hk | hk
            · subst hk; exact hkey
            · intro hmem
              exact (@ih ((m.indentLen, m.name) :: seen)).1 k hk
                (List.mem_cons_of_mem _ hmem)
          · rw [List.map_cons, List.nodup_cons]
            constructor
            · intro hk
              exact (@ih ((m.indentLen, m.name) :: seen)).1 _ hk
                (List.mem_cons_self _ _)
            · exact (@ih ((m.indentLen, m.name) :: seen)).2

/-- C6 (amended): the plain-variable scan of the TS analyzer does
deduplicate by the key `(indentation depth, name)` — the keys of its
emissions are pairwise distinct — and applies no leading-underscore
exclusion; but the arrow-function scan applies no deduplication at all:
two same-name bindings at the same depth yield two definitions from it. -/
theorem claim_C6_variable_dedup :
    (∀ source : String,
      ((TypeScriptAnalyzer.findVariablesKeyed source.data).map (·.1)).Nodup)
    ∧ (TypeScriptAnalyzer.findArrowFunctions ("const f = () => 1\nconst f = () => 2").data).map
        (fun d => d.name) = ["f", "f"]
    ∧ (TypeScriptAnalyzer.findVariables ("const f = () => 1\nconst f = () => 2").data).map
        (fun d => d.name) = ["f"]
    ∧ (TypeScriptAnalyzer.findVariables ("const _x = 1").data).map (fun d => d.name) = ["_x"]
    ∧ (TypeScriptAnalyzer.findArrowFunctions ("const _f = () => 1").data).map
        (fun d => d.name) = ["_f"] := by
  refine ⟨?_, by decide, by decide, by decide, by decide⟩
  intro source
  exact tsVariablesKeyedLoop_nodup.2

/-- Counterexample to C6 as stated: two same-name arrow-function bindings
at indentation depth 0 yield two (not one) definitions from the
arrow-function scan, which has no deduplication. -/
theorem claim_C6_counterexample :
    ((TypeScriptAnalyzer.findArrowFunctions
        ("const f = () => 1\nconst f = () => 2").data).filter
      (fun d => d.name == "f")).length = 2 := by decide

/-! ## C5: getImportPath — shape order and textual matching -/

theorem tryFromPathAt_head {nm src : List Char} {i : Nat} {md : List Char}
    (h : PythonAnalyzer.tryFromPathAt nm src i = some md) :
    (litMatch ("from".data) (src.drop i)).isSome = true := by
  simp only [PythonAnalyzer.tryFromPathAt] at h
  rcases hl : litMatch ("from".data) (src.drop i) with _ | t1
  · rw [hl] at h; simp at h
  · simp [hl]

theorem tryAsPathAt_head {nm src : List Char} {i : Nat} {md : List Char}
    (h : PythonAnalyzer.tryAsPathAt nm src i = some md) :
    (litMatch ("import".data) (src.drop i)).isSome = true := by
  simp only [PythonAnalyzer.tryAsPathAt] at h
  rcases hl : litMatch ("import".data) (src.drop i) with _ | t1
  · rw [hl] at h; simp at h
  · simp [hl]

theorem tryDirectPathAt_head {nm src : List Char} {i : Nat} {md : List Char}
    (h : PythonAnalyzer.tryDirectPathAt nm src i = some md) :
    (litMatch ("import".data) (src.drop i)).isSome = true := by
  simp only [PythonAnalyzer.tryDirectPathAt] at h
  rcases hl : litMatch ("import".data) (src.drop i) with _ | t1
  · rw [hl] at h; simp at h
  · simp [hl]

theorem tryNamedPathAt_head {nm src : List Char} {i : Nat} {md : List Char}
    (h : TypeScriptAnalyzer.tryNamedPathAt nm src i = some md) :
    (litMatch ("import".data) (src.drop i)).isSome = true := by
  simp only [TypeScriptAnalyzer.tryNamedPathAt] at h
  rcases hl : litMatch ("import".data) (src.drop i) with _ | t1
  · rw [hl] at h; simp at h
  · simp [hl]

theorem tryDefaultPathAt_head {nm src : List Char} {i : Nat} {md : List Char}
    (h : TypeScriptAnalyzer.tryDefaultPathAt nm src i = some md) :
    (litMatch ("import".data) (src.drop i)).isSome = true := by
  simp only [TypeScriptAnalyzer.tryDefaultPathAt] at h
  rcases hl : litMatch ("import".data) (src.drop i) with _ | t1
  · rw [hl] at h; simp at h
  · simp [hl]

theorem tryNamespacePathAt_head {nm src : List Char} {i : Nat} {md : List Char}
    (h : TypeScriptAnalyzer.tryNamespacePathAt nm src i = some md) :
    (litMatch ("import".data) (src.drop i)).isSome = true := by
  simp only [TypeScriptAnalyzer.tryNamespacePathAt] at h
  rcases hl : litMatch ("import".data) (src.drop i) with _ | t1
  · rw [hl] at h; simp at h
  · simp [hl]

/-- C5 (amended): (1) soundness — a returned module path always comes from
a line that begins with the relevant import keyword (`from`/`import` for
Python, `import` for TypeScript), so a name with no import-keyword line
yields none; (2) the binding shapes are checked in the fixed order
from-import / aliased import / direct import (named / default / namespace
for TypeScript) with the first match returned; (3) but the check is
textual, not a binding check: a name rebound by an `as` alias can still
resolve — `getImportPath "import numpy as np" "numpy" = some "numpy"` even
though that statement binds only `np`. -/
theorem claim_C5_import_path :
    ((∀ (source symbolName modulePath : String),
        PythonAnalyzer.getImportPath source symbolName = some modulePath →
        ∃ i ∈ lineStarts source.data,
          (litMatch ("from".data) (source.data.drop i)).isSome = true
          ∨ (litMatch ("import".data) (source.data.drop i)).isSome = true)
      ∧ (∀ (source symbolName modulePath : String),
          TypeScriptAnalyzer.getImportPath source symbolName = some modulePath →
          ∃ i ∈ lineStarts source.data,
            (litMatch ("import".data) (source.data.drop i)).isSome = true))
    ∧ ((∀ (source symbolName modulePath : String),
          PythonAnalyzer.importPathFrom source symbolName = some modulePath →
          PythonAnalyzer.getImportPath source symbolName = some modulePath)
      ∧ (∀ (source symbolName modulePath : String),
          PythonAnalyzer.importPathFrom source symbolName = none →
          PythonAnalyzer.importPathAs source symbolName = some modulePath →
          PythonAnalyzer.getImportPath source symbolName = some modulePath)
      ∧ (∀ (source symbolName : String),
          PythonAnalyzer.importPathFrom source symbolName = none →
          PythonAnalyzer.importPathAs source symbolName = none →
          PythonAnalyzer.getImportPath source symbolName
            = PythonAnalyzer.importPathDirect source symbolName)
      ∧ (∀ (source symbolName modulePath : String),
          TypeScriptAnalyzer.importPathNamed source symbolName = some modulePath →
          TypeScriptAnalyzer.getImportPath source symbolName = some modulePath)
      ∧ (∀ (source symbolName modulePath : String),
          TypeScriptAnalyzer.importPathNamed source symbolName = none →
          TypeScriptAnalyzer.importPathDefault source symbolName = some modulePath →
          TypeScriptAnalyzer.getImportPath source symbolName = some modulePath)
      ∧ (∀ (source symbolName : String),
          TypeScriptAnalyzer.importPathNamed source symbolName = none →
          TypeScriptAnalyzer.importPathDefault source symbolName = none →
          TypeScriptAnalyzer.getImportPath source symbolName
            = TypeScriptAnalyzer.importPathNamespace source symbolName))
    ∧ PythonAnalyzer.getImportPath "import numpy as np" "numpy" = some "numpy" := by
  refine ⟨⟨?_, ?_⟩, ⟨?_, ?_, ?_, ?_, ?_, ?_⟩, rfl⟩
  · intro source symbolName modulePath h
    unfold PythonAnalyzer.getImportPath at h
    rcases h1 : PythonAnalyzer.importPathFrom source symbolName with _ | p
    · rw [h1] at h
      rcases h2 : PythonAnalyzer.importPathAs source symbolName with _ | p
      · rw [h2] at h
        unfold PythonAnalyzer.importPathDirect at h
        rcases h3 : scanFirst (PythonAnalyzer.tryDirectPathAt symbolName.data source.data)
            (lineStarts source.data) with _ | md
        · rw [h3] at h; simp at h
        · rcases scanFirst_eq_some h3 with ⟨i, hi, htry⟩
          exact ⟨i, hi, Or.inr (tryDirectPathAt_head htry)⟩
      · unfold PythonAnalyzer.importPathAs at h2
        rcases h3 : scanFirst (PythonAnalyzer.tryAsPathAt symbolName.data source.data)
            (lineStarts source.data) with _ | md
        · rw [h3] at h2; simp at h2
        · rcases scanFirst_eq_some h3 with ⟨i, hi, htry⟩
          exact ⟨i, hi, Or.inr (tryAsPathAt_head htry)⟩
    · unfold PythonAnalyzer.importPathFrom at h1
      rcases h3 : scanFirst (PythonAnalyzer.tryFromPathAt symbolName.data source.data)
          (lineStarts source.data) with _ | md
      · rw [h3] at h1; simp at h1
      · rcases scanFirst_eq_some h3 with ⟨i, hi, htry⟩
        exact ⟨i, hi, Or.inl (tryFromPathAt_head htry)⟩
  · intro source symbolName modulePath h
    unfold TypeScriptAnalyzer.getImportPath at h
    rcases h1 : TypeScriptAnalyzer.importPathNamed source symbolName with _ | p
    · rw [h1] at h
      rcases h2 : TypeScriptAnalyzer.importPathDefault source symbolName with _ | p
      · rw [h2] at h
        unfold TypeScriptAnalyzer.importPathNamespace at h
        rcases h3 : scanFirst (TypeScriptAnalyzer.tryNamespacePathAt symbolName.data source.data)
            (lineStarts source.data) with _ | md
        · rw [h3] at h; simp at h
        · rcases scanFirst_eq_some h3 with ⟨i, hi, htry⟩
          exact ⟨i, hi, tryNamespacePathAt_head htry⟩
      · unfold TypeScriptAnalyzer.importPathDefault at h2
        rcases h3 : scanFirst (TypeScriptAnalyzer.tryDefaultPathAt symbolName.data source.data)
            (lineStarts source.data) with _ | md
        · rw [h3] at h2; simp at h2
        · rcases scanFirst_eq_some h3 with ⟨i, hi, htry⟩
          exact ⟨i, hi, tryDefaultPathAt_head htry⟩
    · unfold TypeScriptAnalyzer.importPathNamed at h1
      rcases h3 : scanFirst (TypeScriptAnalyzer.tryNamedPathAt symbolName.data source.data)
          (lineStarts source.data) with _ | md
      · rw [h3] at h1; simp at h1
      · rcases scanFirst_eq_some h3 with ⟨i, hi, htry⟩
        exact ⟨i, hi, tryNamedPathAt_head htry⟩
  · intro source symbolName modulePath h
    unfold PythonAnalyzer.getImportPath
    rw [h]
  · intro source symbolName modulePath h1 h2
    unfold PythonAnalyzer.getImportPath
    rw [h1, h2]
  · intro source symbolName h1 h2
    unfold PythonAnalyzer.getImportPath
    rw [h1, h2]
  · intro source symbolName modulePath h
    unfold TypeScriptAnalyzer.getImportPath
    rw [h]
  · intro source symbolName modulePath h1 h2
    unfold TypeScriptAnalyzer.getImportPath
    rw [h1, h2]
  · intro source symbolName h1 h2
    unfold TypeScriptAnalyzer.getImportPath
    rw [h1, h2]

/-- Counterexample to C5 as stated: `import numpy as np` binds only `np`
(the sole import definition the scanner itself extracts is named `np`),
yet `getImportPath` resolves the unbound original name `numpy` to
`numpy` instead of returning none. -/
theorem claim_C5_counterexample :
    PythonAnalyzer.getImportPath "import numpy as np" "numpy" = some "numpy"
    ∧ ((PythonAnalyzer.findDefinitions "import numpy as np").filter
        (fun d => d.kind == "import")).map (fun d => d.name) = ["np"] := by
  exact ⟨rfl, by decide⟩

/-- Witness for C5 (amended): the from-import shape matches first in
`from os import path`, and `getImportPath` returns its module `os`. -/
theorem claim_C5_witness :
    PythonAnalyzer.getImportPath "from os import path" "path" = some "os" :=
  claim_C5_import_path.2.1.1 "from os import path" "path" "os" rfl

/-- Witness for C1 (amended) at `"def hello():"`: the emitted function
definition spans columns 5–10 with `10 = 5 + 5`. -/
theorem claim_C1_witness :
    (⟨"hello", 1, 5, 1, 10, "function"⟩ : SymbolDefinition).endLine
        = (⟨"hello", 1, 5, 1, 10, "function"⟩ : SymbolDefinition).startLine
      ∧ (⟨"hello", 1, 5, 1, 10, "function"⟩ : SymbolDefinition).endColumn
        = (⟨"hello", 1, 5, 1, 10, "function"⟩ : SymbolDefinition).startColumn
          + (⟨"hello", 1, 5, 1, 10, "function"⟩ : SymbolDefinition).name.length :=
  claim_C1_span_arithmetic "def hello():" ⟨"hello", 1, 5, 1, 10, "function"⟩
    (Or.inl (by decide)) (by decide)

end MDP
